import Mathlib

/-! # The city record store (`src/storage/cityStore.js`)

A shallow embedding of the record store: JavaScript values as an inductive
type, objects as ordered key/value lists, the persisted document as the list
of its `cities`, and every operation as a function from the document before
the call to the outcome of the call together with the document persisted
after it.  An operation that throws leaves the document as it was, because
`saveStore` is only reached on the success path.

Reading and writing the data file are assumed to succeed.
-/

namespace CityStore

/-! ## JavaScript values -/

/-- The values a parsed JSON document can hold, plus `undefined` (the result of
reading an absent property).  Numbers are only ever inspected for truthiness
by the store, so they are carried as integers. -/
inductive JsVal where
  | undefined
  | null
  | bool (b : Bool)
  | num (n : Int)
  | str (s : String)
  | arr (items : List JsVal)
  | obj (fields : List (String × JsVal))

namespace JsVal

mutual
/-- Structural equality test on values. -/
def decEq : (a b : JsVal) → Decidable (a = b)
  | .undefined, .undefined => isTrue rfl
  | .null, .null => isTrue rfl
  | .bool a, .bool b =>
    if h : a = b then isTrue (by rw [h]) else isFalse (by intro e; cases e; exact h rfl)
  | .num a, .num b =>
    if h : a = b then isTrue (by rw [h]) else isFalse (by intro e; cases e; exact h rfl)
  | .str a, .str b =>
    if h : a = b then isTrue (by rw [h]) else isFalse (by intro e; cases e; exact h rfl)
  | .arr a, .arr b =>
    match decEqItems a b with
    | isTrue h => isTrue (by rw [h])
    | isFalse h => isFalse (by intro e; cases e; exact h rfl)
  | .obj a, .obj b =>
    match decEqFields a b with
    | isTrue h => isTrue (by rw [h])
    | isFalse h => isFalse (by intro e; cases e; exact h rfl)
  | .undefined, .null | .undefined, .bool _ | .undefined, .num _ | .undefined, .str _
  | .undefined, .arr _ | .undefined, .obj _
  | .null, .undefined | .null, .bool _ | .null, .num _ | .null, .str _
  | .null, .arr _ | .null, .obj _
  | .bool _, .undefined | .bool _, .null | .bool _, .num _ | .bool _, .str _
  | .bool _, .arr _ | .bool _, .obj _
  | .num _, .undefined | .num _, .null | .num _, .bool _ | .num _, .str _
  | .num _, .arr _ | .num _, .obj _
  | .str _, .undefined | .str _, .null | .str _, .bool _ | .str _, .num _
  | .str _, .arr _ | .str _, .obj _
  | .arr _, .undefined | .arr _, .null | .arr _, .bool _ | .arr _, .num _
  | .arr _, .str _ | .arr _, .obj _
  | .obj _, .undefined | .obj _, .null | .obj _, .bool _ | .obj _, .num _
  | .obj _, .str _ | .obj _, .arr _ =>
    isFalse (by intro e; cases e)
/-- Structural equality test on lists of values. -/
def decEqItems : (a b : List JsVal) → Decidable (a = b)
  | [], [] => isTrue rfl
  | [], _ :: _ => isFalse (by intro e; cases e)
  | _ :: _, [] => isFalse (by intro e; cases e)
  | x :: xs, y :: ys =>
    match decEq x y, decEqItems xs ys with
    | isTrue h1, isTrue h2 => isTrue (by rw [h1, h2])
    | isFalse h, _ => isFalse (by intro e; cases e; exact h rfl)
    | _, isFalse h => isFalse (by intro e; cases e; exact h rfl)
/-- Structural equality test on key/value lists. -/
def decEqFields : (a b : List (String × JsVal)) → Decidable (a = b)
  | [], [] => isTrue rfl
  | [], _ :: _ => isFalse (by intro e; cases e)
  | _ :: _, [] => isFalse (by intro e; cases e)
  | (k, x) :: xs, (l, y) :: ys =>
    if hk : k = l then
      match decEq x y, decEqFields xs ys with
      | isTrue h1, isTrue h2 => isTrue (by rw [hk, h1, h2])
      | isFalse h, _ => isFalse (by intro e; cases e; exact h rfl)
      | _, isFalse h => isFalse (by intro e; cases e; exact h rfl)
    else isFalse (by intro e; cases e; exact hk rfl)
end

instance : DecidableEq JsVal := decEq

/-- JavaScript truthiness (`!!v`): `undefined`, `null`, `false`, `0` and `''`
are falsy, every other value (arrays and objects included) is truthy. -/
def truthy : JsVal → Bool
  | .undefined => false
  | .null => false
  | .bool b => b
  | .num n => n != 0
  | .str s => s != ""
  | .arr _ => true
  | .obj _ => true

/-- The test `typeof v === 'object'`: objects, arrays and `null`. -/
def typeofObject : JsVal → Bool
  | .null => true
  | .arr _ => true
  | .obj _ => true
  | _ => false

/-- The test `Array.isArray(v)`. -/
def isArray : JsVal → Bool
  | .arr _ => true
  | _ => false

/-- The expression `a || b`. -/
def or (a b : JsVal) : JsVal := if a.truthy then a else b

/-- The test `v === s` against a string `s`: only an equal string passes. -/
def strictEqStr : JsVal → String → Bool
  | .str t, s => t == s
  | _, _ => false

end JsVal

/-- What a call can throw: an error built by `makeError(status, message)`, or
the `TypeError` the runtime raises when a method is called on a value that has
none (`value.normalize` on a number, say).  The HTTP layer maps the latter to
status 500. -/
inductive JsError where
  | http (status : Nat) (message : String)
  | typeError
  deriving DecidableEq

instance [DecidableEq α] : DecidableEq (Except JsError α) := fun a b =>
  match a, b with
  | .ok x, .ok y =>
    if h : x = y then isTrue (by rw [h]) else isFalse (by intro e; cases e; exact h rfl)
  | .error x, .error y =>
    if h : x = y then isTrue (by rw [h]) else isFalse (by intro e; cases e; exact h rfl)
  | .ok _, .error _ => isFalse (by intro e; cases e)
  | .error _, .ok _ => isFalse (by intro e; cases e)

/-- The `status` an error carries, if any. -/
def JsError.status : JsError → Option Nat
  | .http s _ => some s
  | .typeError => none

/-! ## Objects

An object is the ordered list of its properties.  As in an object literal or a
JSON text, a later entry with the same key overrides an earlier one, so a read
takes the last entry for the key.  The order in which the runtime enumerates
integer-like keys is not modelled; no operation of the store depends on it. -/

/-- A JavaScript object: its own properties, in order. -/
abbrev Obj := List (String × JsVal)

/-- The expression `key in o` for own properties. -/
def hasKey (o : Obj) (key : String) : Bool := o.any (fun kv => kv.1 == key)

/-- The property read `o.key` (`undefined` when the key is absent). -/
def getProp (o : Obj) (key : String) : JsVal :=
  o.foldl (fun acc kv => if kv.1 = key then kv.2 else acc) .undefined

/-- The assignment `o.key = v`: an existing property keeps its place and takes
the new value, a new property is added at the end. -/
def setProp (o : Obj) (key : String) (v : JsVal) : Obj :=
  if hasKey o key then o.map (fun kv => if kv.1 = key then (kv.1, v) else kv)
  else o ++ [(key, v)]

/-- The own enumerable properties a spread `...v` copies: the fields of an
object, the indexed elements of an array.  The store only spreads a value that
passed its `typeof v === 'object'` test, so no other case is reached. -/
def ownEntries : JsVal → Obj
  | .obj fields => fields
  | .arr items => items.enum.map (fun p => (toString p.1, p.2))
  | _ => []

/-- The object literal `{ ...a, ...b }` once `a` is in place: the properties of
`b` are assigned onto `a` in order. -/
def spread (a b : Obj) : Obj := b.foldl (fun acc kv => setProp acc kv.1 kv.2) a

/-- The property read `v.key` on a value that is not `null` or `undefined`
(the store reads only the named fields of a city, never `length`). -/
def prop (v : JsVal) (key : String) : JsVal := getProp (ownEntries v) key

/-! ## Identity resolver: `slugify` -/

/-- The two Unicode-table-driven string methods of the runtime that `slugify`
calls.  The tables are not part of the repository, so the methods are a
parameter; what is known of them is that they leave ASCII text undecomposed
and lower-case ASCII letters the ASCII way. -/
structure UnicodeOps where
  /-- The method `String.prototype.normalize('NFD')`. -/
  normalizeNFD : List Char → List Char
  /-- The method `String.prototype.toLowerCase()`. -/
  toLowerCase : List Char → List Char
  /-- ASCII text is its own decomposed form. -/
  nfd_ascii : ∀ l : List Char, (∀ c ∈ l, c.toNat < 128) → normalizeNFD l = l
  /-- On ASCII text lower-casing is character-wise ASCII lower-casing. -/
  lower_ascii : ∀ l : List Char, (∀ c ∈ l, c.toNat < 128) →
    toLowerCase l = l.map Char.toLower

/-- The class of combining diacritical marks, U+0300 to U+036F. -/
def isCombiningMark (c : Char) : Bool := 0x300 ≤ c.toNat && c.toNat ≤ 0x36f

/-- The class `[a-z0-9]`. -/
def isAlnum (c : Char) : Bool :=
  (97 ≤ c.toNat && c.toNat ≤ 122) || (48 ≤ c.toNat && c.toNat ≤ 57)

/-- The characters `String.prototype.trim()` removes: white space and line
terminators. -/
def isJsWhitespace (c : Char) : Bool :=
  let n := c.toNat
  (9 ≤ n && n ≤ 13) || n == 0x20 || n == 0xA0 || n == 0x1680 ||
  (0x2000 ≤ n && n ≤ 0x200A) || n == 0x2028 || n == 0x2029 || n == 0x202F ||
  n == 0x205F || n == 0x3000 || n == 0xFEFF

/-- The call `.replace(...)` that deletes every combining diacritical mark. -/
def stripMarks (l : List Char) : List Char := l.filter (fun c => !isCombiningMark c)

/-- The call `.trim()`. -/
def trim (l : List Char) : List Char :=
  ((l.dropWhile isJsWhitespace).reverse.dropWhile isJsWhitespace).reverse

/-- The call `.replace(/[^a-z0-9]+/g, '-')`, scanning left to right; `inRun`
tells whether the previous character already belonged to the run being
replaced. -/
def collapseAux : Bool → List Char → List Char
  | _, [] => []
  | inRun, c :: cs =>
    if isAlnum c then c :: collapseAux false cs
    else if inRun then collapseAux true cs
    else '-' :: collapseAux true cs

/-- The call `.replace(/[^a-z0-9]+/g, '-')`. -/
def collapseRuns (l : List Char) : List Char := collapseAux false l

/-- The call `.replace(/(^-|-$)/g, '')`: a `-` at the start is removed, then a
`-` at the end of what remains. -/
def stripEdges (l : List Char) : List Char :=
  let l1 := if l.head? = some '-' then l.tail else l
  if l1.getLast? = some '-' then l1.dropLast else l1

/-- The method chain of `slugify` on a string. -/
def slugifyChars (U : UnicodeOps) (l : List Char) : List Char :=
  stripEdges (collapseRuns (trim (U.toLowerCase (stripMarks (U.normalizeNFD l)))))

/-- The function `slugify(value)`: a falsy value gives `''`, a non-empty string
goes through the method chain, and any other truthy value has no `normalize`
method, so the call throws. -/
def slugify (U : UnicodeOps) (value : JsVal) : Except JsError String :=
  if !value.truthy then .ok ""
  else match value with
    | .str s => .ok (String.mk (slugifyChars U s.data))
    | _ => .error .typeError

/-- The function `normalizeId(input)`. -/
def normalizeId (U : UnicodeOps) (input : JsVal) : Except JsError String := slugify U input

/-! ### A concrete runtime table

Canonical decompositions and lower-case mappings for Basic Latin and the
Latin-1 Supplement, enough to evaluate `slugify` on Spanish city names. -/

/-- Canonical decompositions of the Latin-1 letters: code point, base letter,
combining mark. -/
def latin1Decompositions : List (Nat × Char × Nat) :=
  [(0xC0, 'A', 0x300), (0xC1, 'A', 0x301), (0xC2, 'A', 0x302), (0xC3, 'A', 0x303),
   (0xC4, 'A', 0x308), (0xC5, 'A', 0x30A), (0xC7, 'C', 0x327), (0xC8, 'E', 0x300),
   (0xC9, 'E', 0x301), (0xCA, 'E', 0x302), (0xCB, 'E', 0x308), (0xCC, 'I', 0x300),
   (0xCD, 'I', 0x301), (0xCE, 'I', 0x302), (0xCF, 'I', 0x308), (0xD1, 'N', 0x303),
   (0xD2, 'O', 0x300), (0xD3, 'O', 0x301), (0xD4, 'O', 0x302), (0xD5, 'O', 0x303),
   (0xD6, 'O', 0x308), (0xD9, 'U', 0x300), (0xDA, 'U', 0x301), (0xDB, 'U', 0x302),
   (0xDC, 'U', 0x308), (0xDD, 'Y', 0x301),
   (0xE0, 'a', 0x300), (0xE1, 'a', 0x301), (0xE2, 'a', 0x302), (0xE3, 'a', 0x303),
   (0xE4, 'a', 0x308), (0xE5, 'a', 0x30A), (0xE7, 'c', 0x327), (0xE8, 'e', 0x300),
   (0xE9, 'e', 0x301), (0xEA, 'e', 0x302), (0xEB, 'e', 0x308), (0xEC, 'i', 0x300),
   (0xED, 'i', 0x301), (0xEE, 'i', 0x302), (0xEF, 'i', 0x308), (0xF1, 'n', 0x303),
   (0xF2, 'o', 0x300), (0xF3, 'o', 0x301), (0xF4, 'o', 0x302), (0xF5, 'o', 0x303),
   (0xF6, 'o', 0x308), (0xF9, 'u', 0x300), (0xFA, 'u', 0x301), (0xFB, 'u', 0x302),
   (0xFC, 'u', 0x308), (0xFD, 'y', 0x301), (0xFF, 'y', 0x308)]

/-- Decomposition of one character under the Latin-1 table. -/
def latin1Decompose (c : Char) : List Char :=
  if c.toNat < 128 then [c]
  else match latin1Decompositions.lookup c.toNat with
    | some (base, mark) => [base, Char.ofNat mark]
    | none => [c]

/-- Lower-casing of one character under the Latin-1 table. -/
def latin1Lower (c : Char) : Char :=
  if c.toNat < 128 then c.toLower
  else if 0xC0 ≤ c.toNat && c.toNat ≤ 0xDE && c.toNat != 0xD7 then Char.ofNat (c.toNat + 32)
  else c

/-- The runtime methods restricted to Basic Latin and the Latin-1 Supplement. -/
def latin1 : UnicodeOps where
  normalizeNFD := fun l => l.flatMap latin1Decompose
  toLowerCase := fun l => l.map latin1Lower
  nfd_ascii := by
    intro l h
    induction l with
    | nil => rfl
    | cons c cs ih =>
      have hc : c.toNat < 128 := h c (List.mem_cons_self _ _)
      have ht := ih (fun d hd => h d (List.mem_cons_of_mem _ hd))
      simp only [List.flatMap_cons, latin1Decompose, hc, if_true] at ht ⊢
      rw [ht]; rfl
  lower_ascii := by
    intro l h
    apply List.map_congr_left
    intro c hc
    simp [latin1Lower, h c hc]

/-! ## Record store -/

/-- A city record. -/
abbrev City := Obj

/-- The `cities` list of the persisted document. -/
abbrev Store := List City

/-- The check `validateCityPayload(payload)`: the first failing test throws. -/
def validateCityPayload (payload : JsVal) : Except JsError Unit :=
  if !payload.truthy || !payload.typeofObject then
    .error (.http 400 "Payload invalido")
  else if !(prop payload "ciudad").truthy then
    .error (.http 400 "El campo \"ciudad\" es obligatorio")
  else if !(prop payload "moneda").truthy then
    .error (.http 400 "El campo \"moneda\" es obligatorio")
  else if !(prop payload "servicios_informales").isArray then
    .error (.http 400 "El campo \"servicios_informales\" debe ser una lista")
  else .ok ()

/-- The function `getCities()`. -/
def getCities (store : Store) : List City := store

/-- The predicate of `getCity`: both tests are evaluated, then combined. -/
def cityMatches (U : UnicodeOps) (targetId : String) (city : City) : Except JsError Bool :=
  let directMatch := (getProp city "id").strictEqStr targetId
  match normalizeId U (getProp city "ciudad") with
  | .error e => .error e
  | .ok name => .ok (directMatch || name == targetId)

/-- The predicate of `updateCity` and (negated) of `deleteCity`:
`city.id === targetId || normalizeId(city.ciudad) === targetId`, where the
second test is only evaluated when the first fails. -/
def cityMatchesLazy (U : UnicodeOps) (targetId : String) (city : City) :
    Except JsError Bool :=
  if (getProp city "id").strictEqStr targetId then .ok true
  else match normalizeId U (getProp city "ciudad") with
    | .error e => .error e
    | .ok name => .ok (name == targetId)

/-- The method `Array.prototype.find` with a predicate that may throw. -/
def findCity (p : City → Except JsError Bool) : List City → Except JsError (Option City)
  | [] => .ok none
  | c :: cs =>
    match p c with
    | .error e => .error e
    | .ok true => .ok (some c)
    | .ok false => findCity p cs

/-- The method `Array.prototype.findIndex` with a predicate that may throw
(`none` stands for `-1`). -/
def findCityIndex (p : City → Except JsError Bool) : List City → Except JsError (Option Nat)
  | [] => .ok none
  | c :: cs =>
    match p c with
    | .error e => .error e
    | .ok true => .ok (some 0)
    | .ok false =>
      match findCityIndex p cs with
      | .error e => .error e
      | .ok none => .ok none
      | .ok (some i) => .ok (some (i + 1))

/-- The method `Array.prototype.filter` keeping the records a predicate that
may throw rejects. -/
def rejectCities (p : City → Except JsError Bool) : List City → Except JsError (List City)
  | [] => .ok []
  | c :: cs =>
    match p c with
    | .error e => .error e
    | .ok b =>
      match rejectCities p cs with
      | .error e => .error e
      | .ok rest => .ok (if b then rest else c :: rest)

/-- The function `getCity(idOrName)`; `none` stands for `undefined`. -/
def getCity (U : UnicodeOps) (store : Store) (idOrName : JsVal) :
    Except JsError (Option City) :=
  match normalizeId U idOrName with
  | .error e => .error e
  | .ok targetId => findCity (cityMatches U targetId) store

/-- The function `createCity(payload)` called when the clock reads the
year-month `now`: the value returned or the error thrown, and the document
persisted afterwards. -/
def createCity (U : UnicodeOps) (now : String) (store : Store) (payload : JsVal) :
    Except JsError City × Store :=
  match validateCityPayload payload with
  | .error e => (.error e, store)
  | .ok () =>
    match slugify U (prop payload "ciudad") with
    | .error e => (.error e, store)
    | .ok cityId =>
      if store.any (fun city => (getProp city "id").strictEqStr cityId) then
        (.error (.http 409 "La ciudad ya existe"), store)
      else
        let newCity : City :=
          spread
            [("id", .str cityId),
             ("ultima_actualizacion_aproximada",
               (prop payload "ultima_actualizacion_aproximada").or (.str now))]
            (ownEntries payload)
        (.ok newCity, store ++ [newCity])

/-- The step of `updateCity` guarded by `if (payload.ciudad)`: the merged record
with its id reassigned when the new display name gives a different, non-empty
slug that no other record holds. -/
def reassignId (U : UnicodeOps) (store : Store) (index : Nat) (current merged : City)
    (payload : JsVal) : Except JsError City :=
  if (prop payload "ciudad").truthy then
    match slugify U (prop payload "ciudad") with
    | .error e => .error e
    | .ok newId =>
      if newId != "" && !(getProp current "id").strictEqStr newId then
        if store.enum.any (fun p => p.1 != index && (getProp p.2 "id").strictEqStr newId) then
          .error (.http 409 "Ya existe otra ciudad con ese nombre")
        else .ok (setProp merged "id" (.str newId))
      else .ok merged
  else .ok merged

/-- The function `updateCity(idOrName, payload)` called when the clock reads the
year-month `now`; `none` stands for the `null` returned when no record
matches. -/
def updateCity (U : UnicodeOps) (now : String) (store : Store) (idOrName payload : JsVal) :
    Except JsError (Option City) × Store :=
  if !payload.truthy || !payload.typeofObject then
    (.error (.http 400 "Payload invalido"), store)
  else
    match normalizeId U idOrName with
    | .error e => (.error e, store)
    | .ok targetId =>
      match findCityIndex (cityMatchesLazy U targetId) store with
      | .error e => (.error e, store)
      | .ok none => (.ok none, store)
      | .ok (some index) =>
        let current : City := store.getD index []
        let merged : City := spread current (ownEntries payload)
        match reassignId U store index current merged payload with
        | .error e => (.error e, store)
        | .ok merged1 =>
          if (prop payload "servicios_informales").truthy
              && !(prop payload "servicios_informales").isArray then
            (.error (.http 400 "El campo \"servicios_informales\" debe ser una lista"), store)
          else
            let merged2 : City :=
              setProp merged1 "ultima_actualizacion_aproximada"
                ((prop payload "ultima_actualizacion_aproximada").or (.str now))
            (.ok (some merged2), store.set index merged2)

/-- The function `deleteCity(idOrName)`. -/
def deleteCity (U : UnicodeOps) (store : Store) (idOrName : JsVal) :
    Except JsError Bool × Store :=
  match normalizeId U idOrName with
  | .error e => (.error e, store)
  | .ok targetId =>
    match rejectCities (cityMatchesLazy U targetId) store with
    | .error e => (.error e, store)
    | .ok nextCities =>
      if nextCities.length == store.length then (.ok false, store)
      else (.ok true, nextCities)

/-- The ids of a collection, in order. -/
def storeIds (store : Store) : List JsVal := store.map (fun city => getProp city "id")

/-- Pairwise distinct ids. -/
def UniqueIds (store : Store) : Prop := (storeIds store).Nodup

instance (store : Store) : Decidable (UniqueIds store) := by
  unfold UniqueIds; infer_instance

/-! ## Sample data -/

/-- A payload with the three required fields and the given display name. -/
def samplePayload (ciudad : String) : JsVal :=
  .obj [("ciudad", .str ciudad), ("moneda", .str "COP"), ("servicios_informales", .arr [])]

/-- The payload `samplePayload ciudad` with a caller-supplied `id` in front. -/
def samplePayloadWithId (id ciudad : String) : JsVal :=
  .obj [("id", .str id), ("ciudad", .str ciudad), ("moneda", .str "COP"),
    ("servicios_informales", .arr [])]

/-- A stored record with the given id and display name. -/
def sampleRecord (id ciudad : String) : City :=
  [("id", .str id), ("ultima_actualizacion_aproximada", .str "2024-12"),
    ("ciudad", .str ciudad), ("moneda", .str "COP"), ("servicios_informales", .arr [])]

/-! ## Shape of a slug -/

/-- The characters a slug is made of: `[a-z0-9]` and the separator. -/
def isSlugChar (c : Char) : Bool := isAlnum c || c == '-'

/-- No two adjacent separators. -/
def noAdjacentDash : List Char → Bool
  | a :: b :: rest => !(a == '-' && b == '-') && noAdjacentDash (b :: rest)
  | _ => true

/-- The shape of a slug: only `[a-z0-9-]`, no separator at either end, no two
separators in a row. -/
def IsSlug (l : List Char) : Prop :=
  (∀ c ∈ l, isSlugChar c = true) ∧ l.head? ≠ some '-' ∧ l.getLast? ≠ some '-' ∧
    noAdjacentDash l = true

instance (l : List Char) : Decidable (IsSlug l) := by
  unfold IsSlug; infer_instance

/-- Following the specification of Delete: the records of the collection whose
id differs from the target and whose display name has a slug that differs from
it, in their original order. -/
def recordsLeft (U : UnicodeOps) (targetId : String) (store : Store) : Store :=
  store.filter (fun city =>
    !(getProp city "id").strictEqStr targetId &&
      decide (slugify U (getProp city "ciudad") ≠ .ok targetId))

/-! # Theorems -/

/-! ## Lemmas: characters -/

theorem dash_toNat : ('-' : Char).toNat = 45 := by decide

theorem isAlnum_ne_dash {c : Char} (h : isAlnum c = true) : c ≠ '-' := by
  rintro rfl
  revert h; decide

theorem isSlugChar_cases {c : Char} (h : isSlugChar c = true) : isAlnum c = true ∨ c = '-' := by
  simpa [isSlugChar] using h

theorem isSlugChar_ascii {c : Char} (h : isSlugChar c = true) : c.toNat < 128 := by
  rcases isSlugChar_cases h with h | rfl
  · simp only [isAlnum, Bool.or_eq_true, Bool.and_eq_true, decide_eq_true_eq] at h
    omega
  · decide

theorem isSlugChar_not_mark {c : Char} (h : isSlugChar c = true) : isCombiningMark c = false := by
  have := isSlugChar_ascii h
  simp only [isCombiningMark, Bool.and_eq_false_imp, decide_eq_true_eq, decide_eq_false_iff_not]
  omega

theorem isSlugChar_not_space {c : Char} (h : isSlugChar c = true) : isJsWhitespace c = false := by
  rcases isSlugChar_cases h with h | rfl
  · simp only [isAlnum, Bool.or_eq_true, Bool.and_eq_true, decide_eq_true_eq] at h
    simp only [isJsWhitespace, Bool.or_eq_false_iff, Bool.and_eq_false_imp, decide_eq_true_eq,
      decide_eq_false_iff_not, beq_eq_false_iff_ne, ne_eq]
    omega
  · decide

theorem isSlugChar_toLower {c : Char} (h : isSlugChar c = true) : c.toLower = c := by
  rcases isSlugChar_cases h with h | rfl
  · simp only [isAlnum, Bool.or_eq_true, Bool.and_eq_true, decide_eq_true_eq] at h
    unfold Char.toLower
    simp only
    rw [if_neg]
    omega
  · decide

/-! ## Lemmas: the steps of `slugify` -/

theorem noAdjacentDash_cons_of_ne {c : Char} (l : List Char) (h : c ≠ '-') :
    noAdjacentDash (c :: l) = noAdjacentDash l := by
  cases l with
  | nil => rfl
  | cons b rest => simp [noAdjacentDash, h]

theorem noAdjacentDash_dash_cons {l : List Char} (hh : l.head? ≠ some '-')
    (h : noAdjacentDash l = true) : noAdjacentDash ('-' :: l) = true := by
  cases l with
  | nil => rfl
  | cons b rest =>
    have hb : b ≠ '-' := by simpa using hh
    simp [noAdjacentDash, hb, h]

theorem noAdjacentDash_tail {c : Char} {l : List Char} (h : noAdjacentDash (c :: l) = true) :
    noAdjacentDash l = true := by
  cases l with
  | nil => rfl
  | cons b rest =>
    simp only [noAdjacentDash, Bool.and_eq_true] at h
    exact h.2

theorem noAdjacentDash_head {l : List Char} (h : noAdjacentDash ('-' :: l) = true) :
    l.head? ≠ some '-' := by
  cases l with
  | nil => simp
  | cons b rest =>
    simp only [noAdjacentDash, Bool.and_eq_true, Bool.not_eq_true', Bool.and_eq_false_imp,
      beq_iff_eq, beq_eq_false_iff_ne, ne_eq] at h
    simpa using h.1 trivial

theorem noAdjacentDash_append_left : ∀ (l m : List Char),
    noAdjacentDash (l ++ m) = true → noAdjacentDash l = true
  | [], _, _ => rfl
  | [_], _, _ => rfl
  | a :: b :: rest, m, h => by
    simp only [List.cons_append, noAdjacentDash, Bool.and_eq_true] at h ⊢
    exact ⟨h.1, noAdjacentDash_append_left (b :: rest) m h.2⟩

theorem noAdjacentDash_snoc_dash : ∀ (l : List Char),
    noAdjacentDash (l ++ ['-']) = true → l.getLast? ≠ some '-'
  | [], _ => by simp
  | [a], h => by
    intro e
    have ha : a = '-' := by simpa using e
    subst ha
    exact absurd h (by decide)
  | a :: b :: rest, h => by
    simp only [List.cons_append, noAdjacentDash, Bool.and_eq_true] at h
    have := noAdjacentDash_snoc_dash (b :: rest) (by simpa using h.2)
    simpa [List.getLast?_cons_cons] using this

theorem collapseAux_chars : ∀ (b : Bool) (l : List Char), ∀ c ∈ collapseAux b l, isSlugChar c = true
  | _, [], c, hc => by simp [collapseAux] at hc
  | b, d :: ds, c, hc => by
    unfold collapseAux at hc
    split at hc
    · rename_i hd
      rcases List.mem_cons.mp hc with rfl | hc
      · simp [isSlugChar, hd]
      · exact collapseAux_chars false ds c hc
    · split at hc
      · exact collapseAux_chars true ds c hc
      · rcases List.mem_cons.mp hc with rfl | hc
        · decide
        · exact collapseAux_chars true ds c hc

theorem collapseAux_shape : ∀ (l : List Char),
    noAdjacentDash (collapseAux false l) = true ∧ noAdjacentDash (collapseAux true l) = true ∧
      (collapseAux true l).head? ≠ some '-'
  | [] => by simp [collapseAux, noAdjacentDash]
  | d :: ds => by
    obtain ⟨h1, h2, h3⟩ := collapseAux_shape ds
    by_cases hd : isAlnum d = true
    · have hne := isAlnum_ne_dash hd
      simp only [collapseAux, hd, if_true, noAdjacentDash_cons_of_ne _ hne, h1, true_and,
        List.head?_cons, ne_eq, Option.some.injEq]
      exact hne
    · simp only [collapseAux, hd, if_false, if_true, Bool.false_eq_true, h2, h3, true_and,
        ne_eq, not_false_eq_true, and_true]
      exact noAdjacentDash_dash_cons h3 h2

theorem collapseAux_id : ∀ (l : List Char), (∀ c ∈ l, isSlugChar c = true) →
    noAdjacentDash l = true → collapseAux false l = l ∧
      (l.head? ≠ some '-' → collapseAux true l = l)
  | [], _, _ => by simp [collapseAux]
  | d :: ds, hc, hn => by
    have hds : ∀ c ∈ ds, isSlugChar c = true := fun c h => hc c (List.mem_cons_of_mem _ h)
    obtain ⟨ih1, ih2⟩ := collapseAux_id ds hds (noAdjacentDash_tail hn)
    rcases isSlugChar_cases (hc d (List.mem_cons_self _ _)) with hd | rfl
    · simp [collapseAux, hd, ih1]
    · have hnd : isAlnum '-' = false := by decide
      have hh := noAdjacentDash_head hn
      simp [collapseAux, hnd, ih2 hh]

theorem stripEdges_id {l : List Char} (h1 : l.head? ≠ some '-') (h2 : l.getLast? ≠ some '-') :
    stripEdges l = l := by
  simp [stripEdges, h1, h2]

theorem stripEdges_shape {l : List Char} (hc : ∀ c ∈ l, isSlugChar c = true)
    (hn : noAdjacentDash l = true) : IsSlug (stripEdges l) := by
  -- the string once a leading separator is gone
  obtain ⟨l1, hl1, hc1, hh1, hn1⟩ : ∃ l1, l1 = (if l.head? = some '-' then l.tail else l) ∧
      (∀ c ∈ l1, isSlugChar c = true) ∧ l1.head? ≠ some '-' ∧ noAdjacentDash l1 = true := by
    refine ⟨_, rfl, ?_, ?_, ?_⟩
    · intro c h
      split at h
      · exact hc c (List.mem_of_mem_tail h)
      · exact hc c h
    · split
      · rename_i hd
        cases l with
        | nil => simp at hd
        | cons a t =>
          have ha : a = '-' := by simpa using hd
          subst ha
          exact noAdjacentDash_head hn
      · assumption
    · split
      · cases l with
        | nil => rfl
        | cons a t => exact noAdjacentDash_tail hn
      · exact hn
  have hs : stripEdges l = if l1.getLast? = some '-' then l1.dropLast else l1 := by
    rw [hl1]; rfl
  rw [hs]
  by_cases hlast : l1.getLast? = some '-'
  · rw [if_pos hlast]
    have hsplit : l1.dropLast ++ ['-'] = l1 := List.dropLast_append_getLast? _ hlast
    refine ⟨fun c h => hc1 c (List.dropLast_subset _ h), ?_, ?_, ?_⟩
    · intro hd
      apply hh1
      rw [← hsplit, List.head?_append, hd]; rfl
    · apply noAdjacentDash_snoc_dash
      rw [hsplit]; exact hn1
    · apply noAdjacentDash_append_left _ ['-']
      rw [hsplit]; exact hn1
  · rw [if_neg hlast]
    exact ⟨hc1, hh1, hlast, hn1⟩

theorem slugifyChars_isSlug (U : UnicodeOps) (l : List Char) : IsSlug (slugifyChars U l) :=
  stripEdges_shape (collapseAux_chars false _) (collapseAux_shape _).1

theorem dropWhile_eq_self {p : Char → Bool} {l : List Char}
    (h : ∀ c, l.head? = some c → p c = false) : l.dropWhile p = l := by
  cases l with
  | nil => rfl
  | cons a t => simp [List.dropWhile, h a rfl]

theorem trim_id {l : List Char} (h : ∀ c ∈ l, isJsWhitespace c = false) : trim l = l := by
  have e1 : l.dropWhile isJsWhitespace = l :=
    dropWhile_eq_self (fun c hc => h c (List.mem_of_mem_head? hc))
  have e2 : l.reverse.dropWhile isJsWhitespace = l.reverse := by
    apply dropWhile_eq_self
    intro c hc
    rw [List.head?_reverse] at hc
    exact h c (List.mem_of_getLast?_eq_some hc)
  unfold trim
  rw [e1, e2, List.reverse_reverse]

theorem slugifyChars_id (U : UnicodeOps) {l : List Char} (h : IsSlug l) : slugifyChars U l = l := by
  obtain ⟨hc, hh, hl, hn⟩ := h
  have hascii : ∀ c ∈ l, c.toNat < 128 := fun c m => isSlugChar_ascii (hc c m)
  have h1 : U.normalizeNFD l = l := U.nfd_ascii l hascii
  have h2 : stripMarks l = l := by
    unfold stripMarks
    rw [List.filter_eq_self]
    intro c m
    simp [isSlugChar_not_mark (hc c m)]
  have h3 : U.toLowerCase l = l := by
    rw [U.lower_ascii l hascii]
    conv_rhs => rw [← List.map_id l]
    exact List.map_congr_left (fun c m => isSlugChar_toLower (hc c m))
  have h4 : trim l = l := trim_id (fun c m => isSlugChar_not_space (hc c m))
  have h5 : collapseRuns l = l := (collapseAux_id l hc hn).1
  unfold slugifyChars
  rw [h1, h2, h3, h4, h5, stripEdges_id hh hl]

theorem slugify_str (U : UnicodeOps) (x : String) :
    slugify U (.str x) = .ok (if x = "" then "" else String.mk (slugifyChars U x.data)) := by
  by_cases hx : x = ""
  · subst hx; rfl
  · simp [slugify, JsVal.truthy, hx]

theorem slugify_slug (U : UnicodeOps) (x : String) :
    slugify U (.str (if x = "" then "" else String.mk (slugifyChars U x.data))) =
      .ok (if x = "" then "" else String.mk (slugifyChars U x.data)) := by
  rw [slugify_str]
  by_cases hx : x = ""
  · subst hx; rfl
  · simp only [if_neg hx]
    by_cases hy : String.mk (slugifyChars U x.data) = ""
    · rw [if_pos hy, hy]
    · rw [if_neg hy, slugifyChars_id U (slugifyChars_isSlug U x.data)]

/-- Claim C9: for every string, `slugify` returns a string made only of `a-z`,
`0-9` and `-`, that neither begins nor ends with `-` and has no two adjacent
`-`. -/
theorem slugify_shape (U : UnicodeOps) (x : String) :
    ∃ y : String, slugify U (.str x) = .ok y ∧
      (∀ c ∈ y.data, isAlnum c = true ∨ c = '-') ∧
      y.data.head? ≠ some '-' ∧ y.data.getLast? ≠ some '-' ∧
      noAdjacentDash y.data = true := by
  refine ⟨_, slugify_str U x, ?_⟩
  split
  · simp [noAdjacentDash]
  · obtain ⟨hc, hh, hl, hn⟩ := slugifyChars_isSlug U x.data
    exact ⟨fun c m => isSlugChar_cases (hc c m), hh, hl, hn⟩

/-- Claim C8: `slugify` is idempotent on strings: it returns a string, and
applied to that string it returns it again. -/
theorem slugify_idempotent (U : UnicodeOps) (x : String) :
    ∃ y : String, slugify U (.str x) = .ok y ∧ slugify U (.str y) = .ok y :=
  ⟨_, slugify_str U x, slugify_slug U x⟩

/-! ## Lemmas: objects -/

theorem getProp_foldl (key : String) : ∀ (o : Obj) (acc : JsVal),
    o.foldl (fun acc kv => if kv.1 = key then kv.2 else acc) acc =
      if hasKey o key then getProp o key else acc
  | [], acc => by simp [hasKey]
  | kv :: o, acc => by
    have ih := getProp_foldl key o
    simp only [List.foldl_cons, getProp, hasKey, List.any_cons] at ih ⊢
    rw [ih, ih (if kv.1 = key then kv.2 else JsVal.undefined)]
    by_cases h1 : o.any (fun kv => kv.1 == key) = true
    · simp [h1]
    · by_cases h2 : kv.1 = key <;> simp [h1, h2]

theorem getProp_nil (key : String) : getProp [] key = .undefined := rfl

theorem getProp_cons (kv : String × JsVal) (o : Obj) (key : String) :
    getProp (kv :: o) key =
      if hasKey o key then getProp o key else if kv.1 = key then kv.2 else .undefined := by
  unfold getProp
  rw [List.foldl_cons, getProp_foldl]
  rfl

theorem hasKey_cons (kv : String × JsVal) (o : Obj) (key : String) :
    hasKey (kv :: o) key = (kv.1 == key || hasKey o key) := by
  simp [hasKey]

theorem hasKey_append (a b : Obj) (key : String) :
    hasKey (a ++ b) key = (hasKey a key || hasKey b key) := by
  simp [hasKey]

theorem getProp_of_not_hasKey {o : Obj} {key : String} (h : hasKey o key = false) :
    getProp o key = .undefined := by
  induction o with
  | nil => rfl
  | cons kv o ih =>
    rw [hasKey_cons, Bool.or_eq_false_iff] at h
    have hk : ¬ kv.1 = key := by simpa using h.1
    rw [getProp_cons, h.2, if_neg hk]
    rfl

theorem getProp_snoc (o : Obj) (k : String) (v : JsVal) (key : String) :
    getProp (o ++ [(k, v)]) key = if k = key then v else getProp o key := by
  unfold getProp
  rw [List.foldl_append]
  rfl

theorem hasKey_map_set (o : Obj) (k : String) (v : JsVal) (key : String) :
    hasKey (o.map (fun kv => if kv.1 = k then (kv.1, v) else kv)) key = hasKey o key := by
  induction o with
  | nil => rfl
  | cons kv o ih =>
    rw [List.map_cons, hasKey_cons, hasKey_cons, ih]
    by_cases h : kv.1 = k <;> simp [h]

theorem getProp_map_set (o : Obj) (k : String) (v : JsVal) (key : String) :
    getProp (o.map (fun kv => if kv.1 = k then (kv.1, v) else kv)) key =
      if k = key ∧ hasKey o key then v else getProp o key := by
  induction o with
  | nil => simp [getProp_nil, hasKey]
  | cons kv o ih =>
    rw [List.map_cons, getProp_cons, hasKey_map_set, ih, getProp_cons, hasKey_cons]
    by_cases h1 : hasKey o key = true
    · simp [h1]
    · by_cases h2 : kv.1 = k
      · by_cases h3 : k = key
        · subst h3; simp [h1, h2]
        · have : ¬ kv.1 = key := by rw [h2]; exact h3
          simp [h1, h2, h3, this]
      · by_cases h3 : kv.1 = key
        · have h4 : ¬ k = key := by rw [← h3]; exact fun e => h2 e.symm
          have h5 : ¬ key = k := fun e => h4 e.symm
          simp [h1, h2, h3, h4, h5]
        · simp [h1, h2, h3]

theorem hasKey_setProp (o : Obj) (k : String) (v : JsVal) (key : String) :
    hasKey (setProp o k v) key = (hasKey o key || k == key) := by
  unfold setProp
  split
  · rename_i h
    rw [hasKey_map_set]
    by_cases e : k = key
    · subst e; simp [h]
    · simp [e]
  · rw [hasKey_append]
    simp [hasKey]

theorem getProp_setProp (o : Obj) (k : String) (v : JsVal) (key : String) :
    getProp (setProp o k v) key = if k = key then v else getProp o key := by
  unfold setProp
  split
  · rename_i h
    rw [getProp_map_set]
    by_cases e : k = key
    · subst e; simp [h]
    · simp [e]
  · rw [getProp_snoc]

theorem hasKey_spread : ∀ (b a : Obj) (key : String),
    hasKey (spread a b) key = (hasKey a key || hasKey b key)
  | [], a, key => by simp [spread, hasKey]
  | kv :: b, a, key => by
    have ih := hasKey_spread b (setProp a kv.1 kv.2) key
    unfold spread at ih ⊢
    rw [List.foldl_cons, ih, hasKey_setProp, hasKey_cons, Bool.or_assoc]

theorem getProp_spread : ∀ (b a : Obj) (key : String),
    getProp (spread a b) key = if hasKey b key then getProp b key else getProp a key
  | [], a, key => by simp [spread, hasKey]
  | kv :: b, a, key => by
    have ih := getProp_spread b (setProp a kv.1 kv.2) key
    unfold spread at ih ⊢
    rw [List.foldl_cons, ih, getProp_setProp, getProp_cons, hasKey_cons]
    by_cases h1 : hasKey b key = true
    · simp [h1]
    · by_cases h2 : kv.1 = key
      · simp [h1, h2]
      · have hu := getProp_of_not_hasKey (Bool.eq_false_iff.mpr h1)
        simp [h1, h2]

/-! ## Lemmas: the record store -/

theorem slugify_fixed {U : UnicodeOps} {v : JsVal} {s : String} (h : slugify U v = .ok s) :
    slugify U (.str s) = .ok s := by
  by_cases ht : v.truthy = true
  · cases v with
    | str x =>
      have h1 := slugify_str U x
      rw [h] at h1
      cases h1
      exact slugify_slug U x
    | undefined => simp [JsVal.truthy] at ht
    | null => simp [JsVal.truthy] at ht
    | bool b => simp [slugify, ht] at h
    | num n => simp [slugify, ht] at h
    | arr items => simp [slugify, ht] at h
    | obj fields => simp [slugify, ht] at h
  · simp only [slugify, ht, Bool.not_false, Bool.false_eq_true, Bool.not_eq_true] at h
    simp only [Bool.not_eq_true] at ht
    simp only [ht, Bool.not_false, if_true, Except.ok.injEq] at h
    subst h
    rfl

theorem findCity_append {p : City → Except JsError Bool} {pre : List City}
    (h : ∀ c ∈ pre, p c = .ok false) (l : List City) :
    findCity p (pre ++ l) = findCity p l := by
  induction pre with
  | nil => rfl
  | cons c cs ih =>
    rw [List.cons_append, findCity, h c (List.mem_cons_self _ _)]
    exact ih (fun d hd => h d (List.mem_cons_of_mem _ hd))

theorem findCity_hit {p : City → Except JsError Bool} {pre : List City}
    (h : ∀ c ∈ pre, p c = .ok false) {r : City} (hr : p r = .ok true) (post : List City) :
    findCity p (pre ++ r :: post) = .ok (some r) := by
  rw [findCity_append h, findCity, hr]

/-- What a successful `createCity` did. -/
theorem createCity_ok {U : UnicodeOps} {now : String} {store store' : Store} {payload : JsVal}
    {r : City} (h : createCity U now store payload = (.ok r, store')) :
    validateCityPayload payload = .ok () ∧
    ∃ cityId, slugify U (prop payload "ciudad") = .ok cityId ∧
      store.any (fun city => (getProp city "id").strictEqStr cityId) = false ∧
      r = spread [("id", .str cityId), ("ultima_actualizacion_aproximada",
            (prop payload "ultima_actualizacion_aproximada").or (.str now))] (ownEntries payload) ∧
      store' = store ++ [r] := by
  unfold createCity at h
  split at h
  · cases h
  · rename_i hv
    refine ⟨hv, ?_⟩
    split at h
    · cases h
    · rename_i cityId hs
      refine ⟨cityId, hs, ?_⟩
      split at h
      · cases h
      · rename_i hany
        simp only [Prod.mk.injEq, Except.ok.injEq] at h
        refine ⟨by simpa using hany, h.1.symm, ?_⟩
        rw [← h.2, ← h.1]

theorem validate_ok_ciudad {payload : JsVal} (h : validateCityPayload payload = .ok ()) :
    (prop payload "ciudad").truthy = true := by
  unfold validateCityPayload at h
  split at h
  · cases h
  · split at h
    · cases h
    · rename_i hc
      simpa using hc

theorem created_ciudad (cityId : String) (stamp : JsVal) (payload : JsVal) :
    getProp (spread [("id", .str cityId), ("ultima_actualizacion_aproximada", stamp)]
      (ownEntries payload)) "ciudad" = prop payload "ciudad" := by
  rw [getProp_spread]
  split
  · rfl
  · rename_i hk
    unfold prop
    rw [getProp_of_not_hasKey (Bool.eq_false_iff.mpr hk)]
    simp [getProp_cons, hasKey]

theorem created_id (cityId : String) (stamp : JsVal) (payload : JsVal)
    (hid : hasKey (ownEntries payload) "id" = false) :
    getProp (spread [("id", .str cityId), ("ultima_actualizacion_aproximada", stamp)]
      (ownEntries payload)) "id" = .str cityId := by
  rw [getProp_spread, hid]
  simp [getProp_cons, hasKey]

theorem strictEqStr_self (s : String) : (JsVal.str s).strictEqStr s = true := by
  simp [JsVal.strictEqStr]

/-! ## Lemmas: `updateCity` -/

theorem findCityIndex_lt {p : City → Except JsError Bool} : ∀ {l : List City} {i : Nat},
    findCityIndex p l = .ok (some i) → i < l.length
  | [], i, h => by simp [findCityIndex] at h
  | c :: cs, i, h => by
    unfold findCityIndex at h
    split at h
    · cases h
    · simp only [Except.ok.injEq, Option.some.injEq] at h
      subst h
      simp
    · split at h
      · cases h
      · cases h
      · rename_i j hj
        simp only [Except.ok.injEq, Option.some.injEq] at h
        subst h
        have := findCityIndex_lt hj
        simp only [List.length_cons]
        omega

/-- What a successful `reassignId` returned: the merged record, or the merged
record with a new, non-empty id that no other record holds. -/
theorem reassignId_ok {U : UnicodeOps} {store : Store} {index : Nat} {current merged m1 : City}
    {payload : JsVal} (h : reassignId U store index current merged payload = .ok m1) :
    m1 = merged ∨
      ∃ newId, (prop payload "ciudad").truthy = true ∧
        slugify U (prop payload "ciudad") = .ok newId ∧ newId ≠ "" ∧
        (getProp current "id").strictEqStr newId = false ∧
        store.enum.any (fun p => p.1 != index && (getProp p.2 "id").strictEqStr newId) = false ∧
        m1 = setProp merged "id" (.str newId) := by
  unfold reassignId at h
  split at h
  · rename_i ht
    split at h
    · cases h
    · rename_i newId hs
      split at h
      · rename_i hc
        split at h
        · cases h
        · rename_i hconf
          simp only [Except.ok.injEq] at h
          simp only [Bool.and_eq_true, bne_iff_ne, ne_eq, Bool.not_eq_true'] at hc
          exact Or.inr ⟨newId, ht, hs, hc.1, hc.2, by simpa using hconf, h.symm⟩
      · simp only [Except.ok.injEq] at h
        exact Or.inl h.symm
  · simp only [Except.ok.injEq] at h
    exact Or.inl h.symm

/-- What a successful `updateCity` that found a record did. -/
theorem updateCity_ok {U : UnicodeOps} {now : String} {store store' : Store}
    {idOrName payload : JsVal} {m : City}
    (h : updateCity U now store idOrName payload = (.ok (some m), store')) :
    payload.truthy = true ∧ payload.typeofObject = true ∧
    ∃ targetId index r m1,
      normalizeId U idOrName = .ok targetId ∧
      findCityIndex (cityMatchesLazy U targetId) store = .ok (some index) ∧
      store[index]? = some r ∧
      reassignId U store index r (spread r (ownEntries payload)) payload = .ok m1 ∧
      ((prop payload "servicios_informales").truthy = true →
        (prop payload "servicios_informales").isArray = true) ∧
      m = setProp m1 "ultima_actualizacion_aproximada"
        ((prop payload "ultima_actualizacion_aproximada").or (.str now)) ∧
      store' = store.set index m := by
  unfold updateCity at h
  split at h
  · cases h
  · rename_i hp
    simp only [Bool.or_eq_true, Bool.not_eq_true', not_or, Bool.not_eq_false] at hp
    refine ⟨hp.1, hp.2, ?_⟩
    split at h
    · cases h
    · rename_i targetId ht
      split at h
      · cases h
      · cases h
      · rename_i index hi
        have hlt := findCityIndex_lt hi
        have hget : store[index]? = some store[index] := List.getElem?_eq_getElem hlt
        have hcur : store.getD index [] = store[index] := by
          rw [List.getD_eq_getElem?_getD, hget]; rfl
        simp only [hcur] at h
        split at h
        · cases h
        · rename_i m1 hm1
          split at h
          · cases h
          · rename_i hserv
            simp only [Prod.mk.injEq, Except.ok.injEq, Option.some.injEq] at h
            refine ⟨targetId, index, store[index], m1, ht, hi, hget, hm1, ?_, h.1.symm, ?_⟩
            · intro hs
              simpa [hs] using hserv
            · rw [← h.2, ← h.1]

/-! ## Claims about `createCity` and `getCity` -/

/-- Claim C1 (the code at a failing input): on a collection with pairwise distinct
ids, `createCity` with a payload that carries its own `id` succeeds and
persists a collection in which two records share that id: the spread
`...payload` comes after the computed `id` and overrides it, and the conflict
test only looked at the computed slug. -/
theorem createCity_payload_id_duplicates :
    UniqueIds [sampleRecord "bogota" "Bogota"] ∧
    createCity latin1 "2026-11" [sampleRecord "bogota" "Bogota"]
        (samplePayloadWithId "bogota" "Cali") =
      (.ok [("id", .str "bogota"), ("ultima_actualizacion_aproximada", .str "2026-11"),
          ("ciudad", .str "Cali"), ("moneda", .str "COP"), ("servicios_informales", .arr [])],
        [sampleRecord "bogota" "Bogota",
          [("id", .str "bogota"), ("ultima_actualizacion_aproximada", .str "2026-11"),
            ("ciudad", .str "Cali"), ("moneda", .str "COP"),
            ("servicios_informales", .arr [])]]) ∧
    ¬ UniqueIds (createCity latin1 "2026-11" [sampleRecord "bogota" "Bogota"]
        (samplePayloadWithId "bogota" "Cali")).2 := by
  decide

/-- Claim C2 (the code at a failing input): a payload that passes validation and
whose slug `bogota` is the id of no record is stored, but with the id the
payload carried (`x`), not with `slugify(payload.ciudad)`. -/
theorem createCity_payload_id_wins :
    validateCityPayload (samplePayloadWithId "x" "Bogotá") = .ok () ∧
    slugify latin1 (prop (samplePayloadWithId "x" "Bogotá") "ciudad") = .ok "bogota" ∧
    createCity latin1 "2026-11" [] (samplePayloadWithId "x" "Bogotá") =
      (.ok [("id", .str "x"), ("ultima_actualizacion_aproximada", .str "2026-11"),
          ("ciudad", .str "Bogotá"), ("moneda", .str "COP"), ("servicios_informales", .arr [])],
        [[("id", .str "x"), ("ultima_actualizacion_aproximada", .str "2026-11"),
          ("ciudad", .str "Bogotá"), ("moneda", .str "COP"),
          ("servicios_informales", .arr [])]]) := by
  decide

/-- Claim C3 (the code at a failing input): two valid payloads with the same slug
`bogota`; the first carries its own `id`, is stored under it, and the second
`createCity` then succeeds instead of failing with 409: the collection grows
to two records. -/
theorem createCity_same_slug_twice :
    slugify latin1 (prop (samplePayloadWithId "x" "Bogota") "ciudad") = .ok "bogota" ∧
    slugify latin1 (prop (samplePayload "bogota") "ciudad") = .ok "bogota" ∧
    (createCity latin1 "2026-11" [] (samplePayloadWithId "x" "Bogota")).1 =
      .ok [("id", .str "x"), ("ultima_actualizacion_aproximada", .str "2026-11"),
        ("ciudad", .str "Bogota"), ("moneda", .str "COP"), ("servicios_informales", .arr [])] ∧
    (createCity latin1 "2026-11"
        (createCity latin1 "2026-11" [] (samplePayloadWithId "x" "Bogota")).2
        (samplePayload "bogota")).1 =
      .ok [("id", .str "bogota"), ("ultima_actualizacion_aproximada", .str "2026-11"),
        ("ciudad", .str "bogota"), ("moneda", .str "COP"), ("servicios_informales", .arr [])] ∧
    (createCity latin1 "2026-11"
        (createCity latin1 "2026-11" [] (samplePayloadWithId "x" "Bogota")).2
        (samplePayload "bogota")).2.length = 2 := by
  decide

/-- Claim C4: whenever `ciudad` is missing or empty, or `moneda` is missing or
empty, or `servicios_informales` is not a list, `createCity` fails with a
status-400 error and persists nothing; on an object payload the error is that
of the first failing check in the order `ciudad`, `moneda`,
`servicios_informales` (a payload that is no object at all is turned down
before them, with status 400 as well). -/
theorem createCity_rejects_invalid (U : UnicodeOps) (now : String) (store : Store)
    (payload : JsVal)
    (h : (prop payload "ciudad").truthy = false ∨ (prop payload "moneda").truthy = false ∨
      (prop payload "servicios_informales").isArray = false) :
    ∃ message, createCity U now store payload = (.error (.http 400 message), store) ∧
      message =
        if payload.truthy = false ∨ payload.typeofObject = false then "Payload invalido"
        else if (prop payload "ciudad").truthy = false then "El campo \"ciudad\" es obligatorio"
        else if (prop payload "moneda").truthy = false then "El campo \"moneda\" es obligatorio"
        else "El campo \"servicios_informales\" debe ser una lista" := by
  unfold createCity validateCityPayload
  by_cases h0 : payload.truthy = false ∨ payload.typeofObject = false
  · refine ⟨_, ?_, (if_pos h0).symm⟩
    have : (!payload.truthy || !payload.typeofObject) = true := by
      rcases h0 with h0 | h0 <;> simp [h0]
    simp [this]
  · have h0' : (!payload.truthy || !payload.typeofObject) = false := by
      simp only [not_or, Bool.not_eq_false] at h0
      simp [h0.1, h0.2]
    by_cases h1 : (prop payload "ciudad").truthy = false
    · refine ⟨_, ?_, by rw [if_neg h0, if_pos h1]⟩
      simp [h0', h1]
    · by_cases h2 : (prop payload "moneda").truthy = false
      · refine ⟨_, ?_, by rw [if_neg h0, if_neg h1, if_pos h2]⟩
        simp only [Bool.not_eq_false] at h1
        simp [h0', h1, h2]
      · have h3 : (prop payload "servicios_informales").isArray = false := by
          rcases h with h | h | h
          · exact absurd h h1
          · exact absurd h h2
          · exact h
        refine ⟨_, ?_, by rw [if_neg h0, if_neg h1, if_neg h2]⟩
        simp only [Bool.not_eq_false] at h1 h2
        simp [h0', h1, h2, h3]

/-- Witness for C4: `moneda` missing; the collection is left as it was. -/
theorem createCity_rejects_invalid_witness :
    ∃ message, createCity latin1 "2026-11" [sampleRecord "cali" "Cali"]
        (.obj [("ciudad", .str "Bogota"), ("servicios_informales", .arr [])]) =
        (.error (.http 400 message), [sampleRecord "cali" "Cali"]) ∧
      message =
        if (JsVal.obj [("ciudad", .str "Bogota"), ("servicios_informales", .arr [])]).truthy
            = false ∨
          (JsVal.obj [("ciudad", .str "Bogota"), ("servicios_informales", .arr [])]).typeofObject
            = false then "Payload invalido"
        else if (prop (.obj [("ciudad", .str "Bogota"), ("servicios_informales", .arr [])])
            "ciudad").truthy = false then "El campo \"ciudad\" es obligatorio"
        else if (prop (.obj [("ciudad", .str "Bogota"), ("servicios_informales", .arr [])])
            "moneda").truthy = false then "El campo \"moneda\" es obligatorio"
        else "El campo \"servicios_informales\" debe ser una lista" :=
  createCity_rejects_invalid latin1 "2026-11" [sampleRecord "cali" "Cali"]
    (.obj [("ciudad", .str "Bogota"), ("servicios_informales", .arr [])])
    (Or.inr (Or.inl (by decide)))

/-- Claim C5 (the code at a failing input): the display name `!!!` is non-empty
and slugifies to the empty string; `createCity` succeeds and stores a record
whose id is the empty string. -/
theorem createCity_empty_slug :
    slugify latin1 (.str "!!!") = .ok "" ∧
    createCity latin1 "2026-11" [] (samplePayload "!!!") =
      (.ok [("id", .str ""), ("ultima_actualizacion_aproximada", .str "2026-11"),
          ("ciudad", .str "!!!"), ("moneda", .str "COP"), ("servicios_informales", .arr [])],
        [[("id", .str ""), ("ultima_actualizacion_aproximada", .str "2026-11"),
          ("ciudad", .str "!!!"), ("moneda", .str "COP"),
          ("servicios_informales", .arr [])]]) := by
  decide

/-- Claim C6 (counterexample): the collection holds a record with id `a` and
display name `B`; creating `b` succeeds and stores a record with id `b`, yet
`getCity` with the display name, and with the new id, returns the older
record, which matches by the slug of its display name and comes first. -/
theorem createCity_getCity_counterexample :
    createCity latin1 "2026-11" [sampleRecord "a" "B"] (samplePayload "b") =
      (.ok [("id", .str "b"), ("ultima_actualizacion_aproximada", .str "2026-11"),
          ("ciudad", .str "b"), ("moneda", .str "COP"), ("servicios_informales", .arr [])],
        [sampleRecord "a" "B",
          [("id", .str "b"), ("ultima_actualizacion_aproximada", .str "2026-11"),
            ("ciudad", .str "b"), ("moneda", .str "COP"),
            ("servicios_informales", .arr [])]]) ∧
    getCity latin1
        [sampleRecord "a" "B",
          [("id", .str "b"), ("ultima_actualizacion_aproximada", .str "2026-11"),
            ("ciudad", .str "b"), ("moneda", .str "COP"),
            ("servicios_informales", .arr [])]]
        (prop (samplePayload "b") "ciudad") = .ok (some (sampleRecord "a" "B")) ∧
    getCity latin1
        [sampleRecord "a" "B",
          [("id", .str "b"), ("ultima_actualizacion_aproximada", .str "2026-11"),
            ("ciudad", .str "b"), ("moneda", .str "COP"),
            ("servicios_informales", .arr [])]]
        (.str "b") = .ok (some (sampleRecord "a" "B")) ∧
    sampleRecord "a" "B" ≠
      [("id", .str "b"), ("ultima_actualizacion_aproximada", .str "2026-11"),
        ("ciudad", .str "b"), ("moneda", .str "COP"), ("servicios_informales", .arr [])] := by
  decide

/-- Claim C6 (amended): when the payload carries no `id` of its own and no record
already in the collection has a display name with the same slug as the new
one, a successful `createCity` returning `r` is followed by
`getCity(payload.ciudad)` and `getCity(r.id)` both returning `r`. -/
theorem createCity_then_getCity (U : UnicodeOps) (now : String) (store store' : Store)
    (payload : JsVal) (r : City)
    (hid : hasKey (ownEntries payload) "id" = false)
    (hname : ∀ c ∈ store, ∃ s, slugify U (getProp c "ciudad") = .ok s ∧
      slugify U (prop payload "ciudad") ≠ .ok s)
    (h : createCity U now store payload = (.ok r, store')) :
    getCity U store' (prop payload "ciudad") = .ok (some r) ∧
    getCity U store' (getProp r "id") = .ok (some r) := by
  obtain ⟨_, cityId, hs, hany, hr, hst⟩ := createCity_ok h
  have hrc : getProp r "ciudad" = prop payload "ciudad" := by rw [hr]; exact created_ciudad _ _ _
  have hri : getProp r "id" = .str cityId := by rw [hr]; exact created_id _ _ _ hid
  have hpre : ∀ c ∈ store, cityMatches U cityId c = .ok false := by
    intro c hc
    obtain ⟨s, h1, h2⟩ := hname c hc
    have hd : (getProp c "id").strictEqStr cityId = false := by
      rw [List.any_eq_false] at hany
      simpa using hany c hc
    have hne : s ≠ cityId := by
      rintro rfl
      exact h2 hs
    simp [cityMatches, normalizeId, h1, hd, hne]
  have hhit : cityMatches U cityId r = .ok true := by
    simp [cityMatches, normalizeId, hrc, hs]
  have hfind : findCity (cityMatches U cityId) store' = .ok (some r) := by
    rw [hst]
    exact findCity_hit hpre hhit []
  constructor
  · simp only [getCity, normalizeId, hs]
    exact hfind
  · simp only [getCity, normalizeId, hri, slugify_fixed hs]
    exact hfind

/-- Witness for C6 (amended): `Bogotá` created next to `cali`. -/
theorem createCity_then_getCity_witness :
    getCity latin1
        [sampleRecord "cali" "Cali",
          [("id", .str "bogota"), ("ultima_actualizacion_aproximada", .str "2026-11"),
            ("ciudad", .str "Bogotá"), ("moneda", .str "COP"),
            ("servicios_informales", .arr [])]]
        (prop (samplePayload "Bogotá") "ciudad") =
      .ok (some [("id", .str "bogota"), ("ultima_actualizacion_aproximada", .str "2026-11"),
        ("ciudad", .str "Bogotá"), ("moneda", .str "COP"), ("servicios_informales", .arr [])]) ∧
    getCity latin1
        [sampleRecord "cali" "Cali",
          [("id", .str "bogota"), ("ultima_actualizacion_aproximada", .str "2026-11"),
            ("ciudad", .str "Bogotá"), ("moneda", .str "COP"),
            ("servicios_informales", .arr [])]]
        (getProp [("id", .str "bogota"), ("ultima_actualizacion_aproximada", .str "2026-11"),
          ("ciudad", .str "Bogotá"), ("moneda", .str "COP"), ("servicios_informales", .arr [])]
          "id") =
      .ok (some [("id", .str "bogota"), ("ultima_actualizacion_aproximada", .str "2026-11"),
        ("ciudad", .str "Bogotá"), ("moneda", .str "COP"), ("servicios_informales", .arr [])]) :=
  createCity_then_getCity latin1 "2026-11" [sampleRecord "cali" "Cali"] _
    (samplePayload "Bogotá") _ (by decide)
    (by
      intro c hc
      rw [List.mem_singleton] at hc
      subst hc
      exact ⟨"cali", by decide, by decide⟩)
    (by decide)

/-- Claim C7 (counterexample): two records with distinct ids `a` and `b`, the
first with display name `B`; `getCity` with the id of the second returns the
first, whose display name has that slug. -/
theorem getCity_by_id_counterexample :
    UniqueIds [sampleRecord "a" "B", sampleRecord "b" "C"] ∧
    sampleRecord "b" "C" ∈ [sampleRecord "a" "B", sampleRecord "b" "C"] ∧
    getCity latin1 [sampleRecord "a" "B", sampleRecord "b" "C"]
        (getProp (sampleRecord "b" "C") "id") = .ok (some (sampleRecord "a" "B")) ∧
    sampleRecord "a" "B" ≠ sampleRecord "b" "C" := by
  decide

/-- Claim C7 (amended): a token matches a record when its slug equals the stored
id or the slug of the record's display name, and `getCity` returns the first
match in collection order.  So a record `r` whose display name slugifies to
`name`, whose id is a string `id` that `slugify` leaves unchanged, and before
which no record is matched by `name` or by `id`, is returned both by
`getCity(r.ciudad)` and by `getCity(r.id)`. -/
theorem getCity_by_name_and_id (U : UnicodeOps) (pre post : List City) (r : City)
    (name id : String)
    (hname : slugify U (getProp r "ciudad") = .ok name)
    (hid : getProp r "id" = .str id)
    (hfix : slugify U (.str id) = .ok id)
    (hpreName : ∀ c ∈ pre, cityMatches U name c = .ok false)
    (hpreId : ∀ c ∈ pre, cityMatches U id c = .ok false) :
    getCity U (pre ++ r :: post) (getProp r "ciudad") = .ok (some r) ∧
    getCity U (pre ++ r :: post) (getProp r "id") = .ok (some r) := by
  constructor
  · simp only [getCity, normalizeId, hname]
    exact findCity_hit hpreName (by simp [cityMatches, normalizeId, hname]) post
  · simp only [getCity, normalizeId, hid, hfix]
    exact findCity_hit hpreId
      (by simp [cityMatches, normalizeId, hname, hid, JsVal.strictEqStr]) post

/-- Witness for C7 (amended): `Bogotá` stored between two other cities. -/
theorem getCity_by_name_and_id_witness :
    getCity latin1
        ([sampleRecord "cali" "Cali"] ++ sampleRecord "bogota" "Bogotá" ::
          [sampleRecord "leticia" "Leticia"])
        (getProp (sampleRecord "bogota" "Bogotá") "ciudad") =
      .ok (some (sampleRecord "bogota" "Bogotá")) ∧
    getCity latin1
        ([sampleRecord "cali" "Cali"] ++ sampleRecord "bogota" "Bogotá" ::
          [sampleRecord "leticia" "Leticia"])
        (getProp (sampleRecord "bogota" "Bogotá") "id") =
      .ok (some (sampleRecord "bogota" "Bogotá")) :=
  getCity_by_name_and_id latin1 [sampleRecord "cali" "Cali"] [sampleRecord "leticia" "Leticia"]
    (sampleRecord "bogota" "Bogotá") "bogota" "bogota" (by decide) (by decide) (by decide)
    (by decide) (by decide)

/-! ## Claims about `updateCity` -/

/-- Claim C10 (counterexample): a stored record without the key
`ultima_actualizacion_aproximada`, updated with the empty payload: the
returned and stored record has that key, which neither the record nor the
payload had. -/
theorem updateCity_keys_counterexample :
    updateCity latin1 "2026-11" [[("id", .str "cali"), ("ciudad", .str "Cali")]]
        (.str "cali") (.obj []) =
      (.ok (some [("id", .str "cali"), ("ciudad", .str "Cali"),
          ("ultima_actualizacion_aproximada", .str "2026-11")]),
        [[("id", .str "cali"), ("ciudad", .str "Cali"),
          ("ultima_actualizacion_aproximada", .str "2026-11")]]) ∧
    hasKey [("id", .str "cali"), ("ciudad", .str "Cali"),
        ("ultima_actualizacion_aproximada", .str "2026-11")]
      "ultima_actualizacion_aproximada" = true ∧
    hasKey [("id", .str "cali"), ("ciudad", .str "Cali")]
      "ultima_actualizacion_aproximada" = false ∧
    hasKey (ownEntries (.obj [])) "ultima_actualizacion_aproximada" = false := by
  decide

/-- Claim C10 (amended): a successful `updateCity(token, p)` resolves the token to
the first matching record `r`, stores the record it returns in the place of
`r`, and that record `m` is the shallow merge of `r` and `p`: it has every key
of `r` and of `p`, no key beyond those except `id` and
`ultima_actualizacion_aproximada` (which it always has), and for every other
key the value is `p[k]` when `p` has the key and `r[k]` otherwise.  With the
empty payload every key other than `ultima_actualizacion_aproximada`, `id`
included, is present exactly when it was and keeps its value. -/
theorem updateCity_shallow_merge (U : UnicodeOps) (now : String) (store store' : Store)
    (token p : JsVal) (m : City)
    (h : updateCity U now store token p = (.ok (some m), store')) :
    ∃ target index r,
      normalizeId U token = .ok target ∧
      findCityIndex (cityMatchesLazy U target) store = .ok (some index) ∧
      store[index]? = some r ∧
      store' = store.set index m ∧
      (∀ k, hasKey r k = true ∨ hasKey (ownEntries p) k = true → hasKey m k = true) ∧
      (∀ k, hasKey m k = true → hasKey r k = true ∨ hasKey (ownEntries p) k = true ∨
        k = "id" ∨ k = "ultima_actualizacion_aproximada") ∧
      hasKey m "ultima_actualizacion_aproximada" = true ∧
      (∀ k, k ≠ "id" → k ≠ "ultima_actualizacion_aproximada" →
        getProp m k = if hasKey (ownEntries p) k then prop p k else getProp r k) ∧
      (p = .obj [] → ∀ k, k ≠ "ultima_actualizacion_aproximada" →
        getProp m k = getProp r k ∧ hasKey m k = hasKey r k) := by
  obtain ⟨_, _, target, index, r, m1, ht, hi, hr, hm1, _, hm, hst⟩ := updateCity_ok h
  refine ⟨target, index, r, ht, hi, hr, hst, ?_, ?_, ?_, ?_, ?_⟩
  · intro k hk
    have hmerged : hasKey (spread r (ownEntries p)) k = true := by
      rw [hasKey_spread]; simpa using hk
    rw [hm, hasKey_setProp]
    rcases reassignId_ok hm1 with e | ⟨newId, _, _, _, _, _, e⟩
    · rw [e, hmerged]; rfl
    · rw [e, hasKey_setProp, hmerged]; rfl
  · intro k hk
    rw [hm, hasKey_setProp] at hk
    rcases reassignId_ok hm1 with e | ⟨newId, _, _, _, _, _, e⟩
    · rw [e, hasKey_spread] at hk
      simp only [Bool.or_eq_true, beq_iff_eq] at hk
      rcases hk with (hk | hk) | hk
      · exact Or.inl hk
      · exact Or.inr (Or.inl hk)
      · exact Or.inr (Or.inr (Or.inr hk.symm))
    · rw [e, hasKey_setProp, hasKey_spread] at hk
      simp only [Bool.or_eq_true, beq_iff_eq] at hk
      rcases hk with ((hk | hk) | hk) | hk
      · exact Or.inl hk
      · exact Or.inr (Or.inl hk)
      · exact Or.inr (Or.inr (Or.inl hk.symm))
      · exact Or.inr (Or.inr (Or.inr hk.symm))
  · rw [hm, hasKey_setProp]
    simp
  · intro k hk1 hk2
    rw [hm, getProp_setProp, if_neg (fun e => hk2 e.symm)]
    rcases reassignId_ok hm1 with e | ⟨newId, _, _, _, _, _, e⟩
    · rw [e, getProp_spread]; rfl
    · rw [e, getProp_setProp, if_neg (fun e => hk1 e.symm), getProp_spread]; rfl
  · intro hp k hk
    subst hp
    have e : m1 = spread r (ownEntries (.obj [])) := by
      rcases reassignId_ok hm1 with e | ⟨newId, ht, _⟩
      · exact e
      · exact absurd ht (by decide)
    rw [hm, e, getProp_setProp, if_neg (fun e => hk e.symm), hasKey_setProp]
    have hk' : ("ultima_actualizacion_aproximada" == k) = false := by
      simpa using fun e => hk e.symm
    simp [spread, ownEntries, hk']

/-- Witness for C10 (amended): the currency of `cali` replaced and a country added. -/
theorem updateCity_shallow_merge_witness :
    ∃ target index r,
      normalizeId latin1 (.str "Cali") = .ok target ∧
      findCityIndex (cityMatchesLazy latin1 target)
        [sampleRecord "bogota" "Bogotá", sampleRecord "cali" "Cali"] = .ok (some index) ∧
      [sampleRecord "bogota" "Bogotá", sampleRecord "cali" "Cali"][index]? = some r ∧
      [sampleRecord "bogota" "Bogotá",
          [("id", .str "cali"), ("ultima_actualizacion_aproximada", .str "2026-11"),
            ("ciudad", .str "Cali"), ("moneda", .str "USD"),
            ("servicios_informales", .arr []), ("pais", .str "Colombia")]] =
        [sampleRecord "bogota" "Bogotá", sampleRecord "cali" "Cali"].set index
          [("id", .str "cali"), ("ultima_actualizacion_aproximada", .str "2026-11"),
            ("ciudad", .str "Cali"), ("moneda", .str "USD"),
            ("servicios_informales", .arr []), ("pais", .str "Colombia")] ∧
      (∀ k, hasKey r k = true ∨
          hasKey (ownEntries (.obj [("moneda", .str "USD"), ("pais", .str "Colombia")])) k = true →
        hasKey [("id", .str "cali"), ("ultima_actualizacion_aproximada", .str "2026-11"),
            ("ciudad", .str "Cali"), ("moneda", .str "USD"),
            ("servicios_informales", .arr []), ("pais", .str "Colombia")] k = true) ∧
      (∀ k, hasKey [("id", .str "cali"), ("ultima_actualizacion_aproximada", .str "2026-11"),
            ("ciudad", .str "Cali"), ("moneda", .str "USD"),
            ("servicios_informales", .arr []), ("pais", .str "Colombia")] k = true →
        hasKey r k = true ∨
          hasKey (ownEntries (.obj [("moneda", .str "USD"), ("pais", .str "Colombia")])) k = true ∨
          k = "id" ∨ k = "ultima_actualizacion_aproximada") ∧
      hasKey [("id", .str "cali"), ("ultima_actualizacion_aproximada", .str "2026-11"),
            ("ciudad", .str "Cali"), ("moneda", .str "USD"),
            ("servicios_informales", .arr []), ("pais", .str "Colombia")]
          "ultima_actualizacion_aproximada" = true ∧
      (∀ k, k ≠ "id" → k ≠ "ultima_actualizacion_aproximada" →
        getProp [("id", .str "cali"), ("ultima_actualizacion_aproximada", .str "2026-11"),
            ("ciudad", .str "Cali"), ("moneda", .str "USD"),
            ("servicios_informales", .arr []), ("pais", .str "Colombia")] k =
          if hasKey (ownEntries (.obj [("moneda", .str "USD"), ("pais", .str "Colombia")])) k
          then prop (.obj [("moneda", .str "USD"), ("pais", .str "Colombia")]) k
          else getProp r k) ∧
      (JsVal.obj [("moneda", .str "USD"), ("pais", .str "Colombia")] = .obj [] →
        ∀ k, k ≠ "ultima_actualizacion_aproximada" →
          getProp [("id", .str "cali"), ("ultima_actualizacion_aproximada", .str "2026-11"),
              ("ciudad", .str "Cali"), ("moneda", .str "USD"),
              ("servicios_informales", .arr []), ("pais", .str "Colombia")] k = getProp r k ∧
          hasKey [("id", .str "cali"), ("ultima_actualizacion_aproximada", .str "2026-11"),
              ("ciudad", .str "Cali"), ("moneda", .str "USD"),
              ("servicios_informales", .arr []), ("pais", .str "Colombia")] k = hasKey r k) :=
  updateCity_shallow_merge latin1 "2026-11"
    [sampleRecord "bogota" "Bogotá", sampleRecord "cali" "Cali"] _ (.str "Cali")
    (.obj [("moneda", .str "USD"), ("pais", .str "Colombia")]) _ (by decide)

/-! ## Lemmas: evaluating `updateCity` -/

theorem prop_truthy_object {v : JsVal} {key : String} (h : (prop v key).truthy = true) :
    v.truthy = true ∧ v.typeofObject = true := by
  cases v <;> first
    | exact ⟨rfl, rfl⟩
    | exact absurd h (by simp [prop, ownEntries, getProp, JsVal.truthy])

theorem slugify_ne_empty_truthy {U : UnicodeOps} {v : JsVal} {s : String}
    (h : slugify U v = .ok s) (hs : s ≠ "") : v.truthy = true := by
  by_contra ht
  simp only [Bool.not_eq_true] at ht
  simp only [slugify, ht, Bool.not_false, if_true, Except.ok.injEq] at h
  exact hs h.symm

/-- The id step when the new display name gives a non-empty slug other than
the current id: a conflict error, or the merged record under the new id. -/
theorem reassignId_eval {U : UnicodeOps} {store : Store} {index : Nat} {current merged : City}
    {payload : JsVal} {newId : String}
    (hs : slugify U (prop payload "ciudad") = .ok newId) (hne : newId ≠ "")
    (hd : (getProp current "id").strictEqStr newId = false) :
    reassignId U store index current merged payload =
      if store.enum.any (fun p => p.1 != index && (getProp p.2 "id").strictEqStr newId) then
        .error (.http 409 "Ya existe otra ciudad con ese nombre")
      else .ok (setProp merged "id" (.str newId)) := by
  have ht := slugify_ne_empty_truthy hs hne
  have hb : (newId != "") = true := by simpa using hne
  simp [reassignId, ht, hs, hb, hd]

/-- The id step when the payload has no usable display name, or one whose
slug is empty or is the current id: the merged record as it is. -/
theorem reassignId_skip {U : UnicodeOps} {store : Store} {index : Nat} {current merged : City}
    {payload : JsVal}
    (h : (prop payload "ciudad").truthy = false ∨
      ∃ newId, slugify U (prop payload "ciudad") = .ok newId ∧
        (newId = "" ∨ (getProp current "id").strictEqStr newId = true)) :
    reassignId U store index current merged payload = .ok merged := by
  unfold reassignId
  rcases h with h | ⟨newId, hs, h⟩
  · simp [h]
  · split
    · rw [hs]
      rcases h with h | h
      · simp [h]
      · simp [h]
    · rfl

/-- The call `updateCity` once the payload is an object and the token is
resolved to the record at `index`. -/
theorem updateCity_resolved {U : UnicodeOps} {now : String} {store : Store}
    {token payload : JsVal} {target : String} {index : Nat} {r : City}
    (hp : payload.truthy = true ∧ payload.typeofObject = true)
    (ht : normalizeId U token = .ok target)
    (hi : findCityIndex (cityMatchesLazy U target) store = .ok (some index))
    (hr : store[index]? = some r) :
    updateCity U now store token payload =
      match reassignId U store index r (spread r (ownEntries payload)) payload with
      | .error e => (.error e, store)
      | .ok m1 =>
        if (prop payload "servicios_informales").truthy
            && !(prop payload "servicios_informales").isArray then
          (.error (.http 400 "El campo \"servicios_informales\" debe ser una lista"), store)
        else
          (.ok (some (setProp m1 "ultima_actualizacion_aproximada"
              ((prop payload "ultima_actualizacion_aproximada").or (.str now)))),
            store.set index (setProp m1 "ultima_actualizacion_aproximada"
              ((prop payload "ultima_actualizacion_aproximada").or (.str now)))) := by
  have hcur : store.getD index [] = r := by
    rw [List.getD_eq_getElem?_getD, hr]; rfl
  unfold updateCity
  simp only [hp.1, hp.2, Bool.not_true, Bool.or_self, Bool.false_eq_true, if_false, ht, hi, hcur]

theorem getProp_updated_id (m1 : City) (stamp : JsVal) :
    getProp (setProp m1 "ultima_actualizacion_aproximada" stamp) "id" = getProp m1 "id" := by
  rw [getProp_setProp, if_neg (by decide)]

/-! ## Claims about the id, the conflict test, the stamp and the list test of `updateCity` -/

/-- Claim C11 (counterexample): the payload supplies the display name `!!!`,
whose slug is the empty string and so differs from the id `cali` of the record;
the update succeeds and the returned record keeps the id `cali` instead of
taking the slug. -/
theorem updateCity_id_counterexample :
    slugify latin1 (prop (.obj [("ciudad", .str "!!!")]) "ciudad") = .ok "" ∧
    getProp (sampleRecord "cali" "Cali") "id" ≠ .str "" ∧
    updateCity latin1 "2026-11" [sampleRecord "cali" "Cali"] (.str "cali")
        (.obj [("ciudad", .str "!!!")]) =
      (.ok (some [("id", .str "cali"), ("ultima_actualizacion_aproximada", .str "2026-11"),
          ("ciudad", .str "!!!"), ("moneda", .str "COP"), ("servicios_informales", .arr [])]),
        [[("id", .str "cali"), ("ultima_actualizacion_aproximada", .str "2026-11"),
          ("ciudad", .str "!!!"), ("moneda", .str "COP"),
          ("servicios_informales", .arr [])]]) := by
  decide

/-- Claim C11 (amended): after a successful `updateCity(token, p)` on the record
`r` the token resolves to, the returned record's id is `slugify(p.ciudad)` when
`p.ciudad` is truthy and that slug is non-empty and differs from `r.id`; in
every other case, for a payload that carries no `id` of its own, it is
`r.id`. -/
theorem updateCity_id (U : UnicodeOps) (now : String) (store store' : Store)
    (token p : JsVal) (m : City)
    (h : updateCity U now store token p = (.ok (some m), store')) :
    ∃ target index r,
      normalizeId U token = .ok target ∧
      findCityIndex (cityMatchesLazy U target) store = .ok (some index) ∧
      store[index]? = some r ∧
      (∀ newId, slugify U (prop p "ciudad") = .ok newId → newId ≠ "" →
        (getProp r "id").strictEqStr newId = false → getProp m "id" = .str newId) ∧
      (hasKey (ownEntries p) "id" = false →
        (¬ ∃ newId, slugify U (prop p "ciudad") = .ok newId ∧ newId ≠ "" ∧
          (getProp r "id").strictEqStr newId = false) →
        getProp m "id" = getProp r "id") := by
  obtain ⟨_, _, target, index, r, m1, ht, hi, hr, hm1, _, hm, _⟩ := updateCity_ok h
  refine ⟨target, index, r, ht, hi, hr, ?_, ?_⟩
  · intro newId hs hne hd
    rw [reassignId_eval hs hne hd] at hm1
    split at hm1
    · cases hm1
    · simp only [Except.ok.injEq] at hm1
      rw [hm, getProp_updated_id, ← hm1, getProp_setProp, if_pos rfl]
  · intro hid hno
    rw [hm, getProp_updated_id]
    rcases reassignId_ok hm1 with e | ⟨newId, _, hs, hne, hd, _, _⟩
    · rw [e, getProp_spread, hid]; rfl
    · exact absurd ⟨newId, hs, hne, hd⟩ hno

/-- Witness for C11 (amended): `Cali` renamed to `Medellín`. -/
theorem updateCity_id_witness :
    ∃ target index r,
      normalizeId latin1 (.str "cali") = .ok target ∧
      findCityIndex (cityMatchesLazy latin1 target) [sampleRecord "cali" "Cali"] =
        .ok (some index) ∧
      [sampleRecord "cali" "Cali"][index]? = some r ∧
      (∀ newId, slugify latin1 (prop (.obj [("ciudad", .str "Medellín")]) "ciudad") = .ok newId →
        newId ≠ "" → (getProp r "id").strictEqStr newId = false →
        getProp [("id", .str "medellin"), ("ultima_actualizacion_aproximada", .str "2026-11"),
          ("ciudad", .str "Medellín"), ("moneda", .str "COP"),
          ("servicios_informales", .arr [])] "id" = .str newId) ∧
      (hasKey (ownEntries (.obj [("ciudad", .str "Medellín")])) "id" = false →
        (¬ ∃ newId, slugify latin1 (prop (.obj [("ciudad", .str "Medellín")]) "ciudad") =
            .ok newId ∧ newId ≠ "" ∧ (getProp r "id").strictEqStr newId = false) →
        getProp [("id", .str "medellin"), ("ultima_actualizacion_aproximada", .str "2026-11"),
          ("ciudad", .str "Medellín"), ("moneda", .str "COP"),
          ("servicios_informales", .arr [])] "id" = getProp r "id") :=
  updateCity_id latin1 "2026-11" [sampleRecord "cali" "Cali"]
    [[("id", .str "medellin"), ("ultima_actualizacion_aproximada", .str "2026-11"),
      ("ciudad", .str "Medellín"), ("moneda", .str "COP"), ("servicios_informales", .arr [])]]
    (.str "cali") (.obj [("ciudad", .str "Medellín")]) _ (by decide)

/-- Claim C12 (counterexample): the second record has the empty id; a new
display name `???` for the first record slugifies to that id, which differs
from the first record's id `a`, yet the update succeeds and rewrites the first
record instead of failing with 409. -/
theorem updateCity_conflict_counterexample :
    slugify latin1 (prop (.obj [("ciudad", .str "???")]) "ciudad") = .ok "" ∧
    getProp (sampleRecord "" "!!!") "id" = .str "" ∧
    getProp (sampleRecord "a" "A") "id" ≠ getProp (sampleRecord "" "!!!") "id" ∧
    updateCity latin1 "2026-11" [sampleRecord "a" "A", sampleRecord "" "!!!"] (.str "a")
        (.obj [("ciudad", .str "???")]) =
      (.ok (some [("id", .str "a"), ("ultima_actualizacion_aproximada", .str "2026-11"),
          ("ciudad", .str "???"), ("moneda", .str "COP"), ("servicios_informales", .arr [])]),
        [[("id", .str "a"), ("ultima_actualizacion_aproximada", .str "2026-11"),
            ("ciudad", .str "???"), ("moneda", .str "COP"), ("servicios_informales", .arr [])],
          sampleRecord "" "!!!"]) := by
  decide

/-- Claim C12 (amended): when the token resolves to the record `r`, another
record `o` at a different position has the id `slugify(p.ciudad)`, that slug
is non-empty and `r.id` differs from it, `updateCity` fails with the 409
conflict error and the persisted collection is unchanged. -/
theorem updateCity_conflict (U : UnicodeOps) (now : String) (store : Store)
    (token p : JsVal) (target newId : String) (index j : Nat) (r o : City)
    (ht : normalizeId U token = .ok target)
    (hi : findCityIndex (cityMatchesLazy U target) store = .ok (some index))
    (hr : store[index]? = some r)
    (hs : slugify U (prop p "ciudad") = .ok newId) (hne : newId ≠ "")
    (ho : store[j]? = some o) (hj : j ≠ index)
    (hoid : getProp o "id" = .str newId) (hdiff : getProp r "id" ≠ getProp o "id") :
    updateCity U now store token p =
      (.error (.http 409 "Ya existe otra ciudad con ese nombre"), store) := by
  have hp := prop_truthy_object (slugify_ne_empty_truthy hs hne)
  have hd : (getProp r "id").strictEqStr newId = false := by
    rw [hoid] at hdiff
    cases hv : getProp r "id" with
    | str s =>
      rw [hv] at hdiff
      have : s ≠ newId := fun e => hdiff (by rw [e])
      simpa [JsVal.strictEqStr] using this
    | _ => rfl
  have hany : store.enum.any
      (fun q => q.1 != index && (getProp q.2 "id").strictEqStr newId) = true := by
    rw [List.any_eq_true]
    refine ⟨(j, o), List.mk_mem_enum_iff_getElem?.mpr ho, ?_⟩
    simp [hj, hoid, JsVal.strictEqStr]
  rw [updateCity_resolved hp ht hi hr, reassignId_eval hs hne hd, if_pos hany]

/-- Witness for C12 (amended): renaming `cali` to `Bogota` while `bogota`
exists. -/
theorem updateCity_conflict_witness :
    updateCity latin1 "2026-11" [sampleRecord "bogota" "Bogotá", sampleRecord "cali" "Cali"]
        (.str "Cali") (.obj [("ciudad", .str "Bogota")]) =
      (.error (.http 409 "Ya existe otra ciudad con ese nombre"),
        [sampleRecord "bogota" "Bogotá", sampleRecord "cali" "Cali"]) :=
  updateCity_conflict latin1 "2026-11" [sampleRecord "bogota" "Bogotá", sampleRecord "cali" "Cali"]
    (.str "Cali") (.obj [("ciudad", .str "Bogota")]) "cali" "bogota" 1 0
    (sampleRecord "cali" "Cali") (sampleRecord "bogota" "Bogotá")
    (by decide) (by decide) (by decide) (by decide) (by decide) (by decide) (by decide)
    (by decide) (by decide)

/-- Claim C14 (counterexample): the payload contains the key
`ultima_actualizacion_aproximada` with the empty string as value; the update
succeeds and the returned record is stamped with the current year-month, not
with the payload's value. -/
theorem updateCity_stamp_counterexample :
    hasKey (ownEntries (.obj [("ultima_actualizacion_aproximada", .str "")]))
      "ultima_actualizacion_aproximada" = true ∧
    prop (.obj [("ultima_actualizacion_aproximada", .str "")])
      "ultima_actualizacion_aproximada" = .str "" ∧
    updateCity latin1 "2026-11" [sampleRecord "cali" "Cali"] (.str "cali")
        (.obj [("ultima_actualizacion_aproximada", .str "")]) =
      (.ok (some [("id", .str "cali"), ("ultima_actualizacion_aproximada", .str "2026-11"),
          ("ciudad", .str "Cali"), ("moneda", .str "COP"), ("servicios_informales", .arr [])]),
        [[("id", .str "cali"), ("ultima_actualizacion_aproximada", .str "2026-11"),
          ("ciudad", .str "Cali"), ("moneda", .str "COP"),
          ("servicios_informales", .arr [])]]) := by
  decide

/-- Claim C14 (amended): after every successful `updateCity(token, p)` performed
when the current year-month is `now`, the returned record's
`ultima_actualizacion_aproximada` is `p`'s value for that key when that value
is truthy, and `now` otherwise (key absent, or present with a falsy value),
whatever else changed. -/
theorem updateCity_stamp (U : UnicodeOps) (now : String) (store store' : Store)
    (token p : JsVal) (m : City)
    (h : updateCity U now store token p = (.ok (some m), store')) :
    getProp m "ultima_actualizacion_aproximada" =
      if (prop p "ultima_actualizacion_aproximada").truthy then
        prop p "ultima_actualizacion_aproximada"
      else .str now := by
  obtain ⟨_, _, _, _, _, m1, _, _, _, _, _, hm, _⟩ := updateCity_ok h
  rw [hm, getProp_setProp, if_pos rfl]
  rfl

/-- Witness for C14 (amended): an update of `cali` that carries its own stamp. -/
theorem updateCity_stamp_witness :
    getProp [("id", .str "cali"), ("ultima_actualizacion_aproximada", .str "2025-03"),
        ("ciudad", .str "Cali"), ("moneda", .str "COP"), ("servicios_informales", .arr [])]
      "ultima_actualizacion_aproximada" =
      if (prop (.obj [("ultima_actualizacion_aproximada", .str "2025-03")])
          "ultima_actualizacion_aproximada").truthy then
        prop (.obj [("ultima_actualizacion_aproximada", .str "2025-03")])
          "ultima_actualizacion_aproximada"
      else .str "2026-11" :=
  updateCity_stamp latin1 "2026-11" [sampleRecord "cali" "Cali"]
    [[("id", .str "cali"), ("ultima_actualizacion_aproximada", .str "2025-03"),
      ("ciudad", .str "Cali"), ("moneda", .str "COP"), ("servicios_informales", .arr [])]]
    (.str "cali") (.obj [("ultima_actualizacion_aproximada", .str "2025-03")]) _ (by decide)

/-- Claim C15 (counterexample): the payload has a `servicios_informales` that is
not a list and a display name that collides with another record; the call
fails with the 409 conflict error, raised before the list test, not with
status 400. -/
theorem updateCity_list_counterexample :
    (prop (.obj [("ciudad", .str "Bogota"), ("servicios_informales", .str "taxi")])
      "servicios_informales").isArray = false ∧
    updateCity latin1 "2026-11" [sampleRecord "bogota" "Bogota", sampleRecord "cali" "Cali"]
        (.str "cali")
        (.obj [("ciudad", .str "Bogota"), ("servicios_informales", .str "taxi")]) =
      (.error (.http 409 "Ya existe otra ciudad con ese nombre"),
        [sampleRecord "bogota" "Bogota", sampleRecord "cali" "Cali"]) := by
  decide

/-- Claim C15 (amended): when the token resolves to a record and the payload has
a truthy `servicios_informales` that is not a list, `updateCity` fails and
leaves the collection unchanged; the error is the status-400 validation error
unless the id step before it already failed, in which case it is that step's
error. -/
theorem updateCity_list (U : UnicodeOps) (now : String) (store : Store)
    (token p : JsVal) (target : String) (index : Nat) (r : City)
    (ht : normalizeId U token = .ok target)
    (hi : findCityIndex (cityMatchesLazy U target) store = .ok (some index))
    (hr : store[index]? = some r)
    (hs : (prop p "servicios_informales").truthy = true)
    (hl : (prop p "servicios_informales").isArray = false) :
    updateCity U now store token p =
      (.error
        (match reassignId U store index r (spread r (ownEntries p)) p with
          | .error e => e
          | .ok _ => .http 400 "El campo \"servicios_informales\" debe ser una lista"),
        store) := by
  rw [updateCity_resolved (prop_truthy_object hs) ht hi hr]
  cases reassignId U store index r (spread r (ownEntries p)) p with
  | error e => rfl
  | ok m1 => simp [hs, hl]

/-- Witness for C15 (amended): a string where the list of services belongs. -/
theorem updateCity_list_witness :
    updateCity latin1 "2026-11" [sampleRecord "cali" "Cali"] (.str "cali")
        (.obj [("servicios_informales", .str "taxi")]) =
      (.error (.http 400 "El campo \"servicios_informales\" debe ser una lista"),
        [sampleRecord "cali" "Cali"]) :=
  (updateCity_list latin1 "2026-11" [sampleRecord "cali" "Cali"] (.str "cali")
    (.obj [("servicios_informales", .str "taxi")]) "cali" 0 (sampleRecord "cali" "Cali")
    (by decide) (by decide) (by decide) (by decide) (by decide)).trans (by decide)

/-! ## Lemmas: locating records -/

theorem strictEqStr_false_ne {v : JsVal} {s : String} (h : v.strictEqStr s = false) :
    v ≠ .str s := by
  rintro rfl
  simp [JsVal.strictEqStr] at h

theorem strictEqStr_ne {a b : String} (h : a ≠ b) : (JsVal.str a).strictEqStr b = false := by
  simpa [JsVal.strictEqStr] using h

/-- A record the eager predicate of `getCity` rejects has another id, and the
lazy predicate of `updateCity` and `deleteCity` rejects it too. -/
theorem cityMatches_false {U : UnicodeOps} {target : String} {c : City}
    (h : cityMatches U target c = .ok false) :
    (getProp c "id").strictEqStr target = false ∧ cityMatchesLazy U target c = .ok false := by
  unfold cityMatches at h
  split at h
  · cases h
  · rename_i name hn
    simp only [Except.ok.injEq, Bool.or_eq_false_iff] at h
    refine ⟨h.1, ?_⟩
    simp [cityMatchesLazy, h.1, hn, h.2]

theorem findCityIndex_hit {p : City → Except JsError Bool} {pre : List City}
    (h : ∀ c ∈ pre, p c = .ok false) {r : City} (hr : p r = .ok true) (post : List City) :
    findCityIndex p (pre ++ r :: post) = .ok (some pre.length) := by
  induction pre with
  | nil => simp [findCityIndex, hr]
  | cons c cs ih =>
    rw [List.cons_append, findCityIndex, h c (List.mem_cons_self _ _)]
    simp only [ih (fun d hd => h d (List.mem_cons_of_mem _ hd)), List.length_cons]

theorem findCity_none {p : City → Except JsError Bool} {l : List City}
    (h : ∀ c ∈ l, p c = .ok false) : findCity p l = .ok none := by
  induction l with
  | nil => rfl
  | cons c cs ih =>
    rw [findCity, h c (List.mem_cons_self _ _)]
    exact ih (fun d hd => h d (List.mem_cons_of_mem _ hd))

theorem getElem?_middle (pre post : List City) (r : City) :
    (pre ++ r :: post)[pre.length]? = some r := by
  rw [List.getElem?_append_right (Nat.le_refl _)]
  simp

theorem set_middle (pre post : List City) (r m : City) :
    (pre ++ r :: post).set pre.length m = pre ++ m :: post := by
  rw [List.set_append_right _ _ (Nat.le_refl _)]
  simp

theorem mem_others_of_getElem? {pre post : List City} {r o : City} {i : Nat}
    (h : (pre ++ r :: post)[i]? = some o) (hi : i ≠ pre.length) : o ∈ pre ++ post := by
  rcases Nat.lt_or_gt_of_ne hi with hlt | hgt
  · rw [List.getElem?_append_left hlt] at h
    exact List.mem_append_left _ (List.getElem?_mem h)
  · rw [List.getElem?_append_right (Nat.le_of_lt hgt)] at h
    obtain ⟨k, hk⟩ : ∃ k, i - pre.length = k + 1 := ⟨i - pre.length - 1, by omega⟩
    rw [hk, List.getElem?_cons_succ] at h
    exact List.mem_append_right _ (List.getElem?_mem h)

theorem no_conflict_middle {pre post : List City} {r : City} {newId : String}
    (h : ∀ o ∈ pre ++ post, (getProp o "id").strictEqStr newId = false) :
    (pre ++ r :: post).enum.any
      (fun q => q.1 != pre.length && (getProp q.2 "id").strictEqStr newId) = false := by
  rw [List.any_eq_false]
  rintro ⟨i, o⟩ hmem
  have hget := List.mk_mem_enum_iff_getElem?.mp hmem
  by_cases hi : i = pre.length
  · simp [hi]
  · simp [h o (mem_others_of_getElem? hget hi)]

/-! ## Claim about renaming a record -/

/-- Claim C13: in a collection where the record `r` has the id `a` (a slug,
`slugify(a) = a`) and no other record is matched by `a`, for a display name
`c` whose slug `b` is non-empty, differs from `a` and matches no other record,
`updateCity(a, {ciudad: c})` returns and stores in place of `r` a record with
id `b`; afterwards `getCity(a)` finds nothing and `getCity(b)` returns the
updated record. -/
theorem updateCity_rename (U : UnicodeOps) (now : String) (pre post : List City) (r : City)
    (a c b : String)
    (hid : getProp r "id" = .str a) (hfix : slugify U (.str a) = .ok a)
    (hslug : slugify U (.str c) = .ok b) (hb : b ≠ "") (hab : b ≠ a)
    (hothersA : ∀ o ∈ pre ++ post, cityMatches U a o = .ok false)
    (hothersB : ∀ o ∈ pre ++ post, cityMatches U b o = .ok false) :
    ∃ m, updateCity U now (pre ++ r :: post) (.str a) (.obj [("ciudad", .str c)]) =
        (.ok (some m), pre ++ m :: post) ∧
      getProp m "id" = .str b ∧
      getCity U (pre ++ m :: post) (.str a) = .ok none ∧
      getCity U (pre ++ m :: post) (.str b) = .ok (some m) := by
  have hpc : prop (.obj [("ciudad", .str c)]) "ciudad" = .str c := by
    simp [prop, ownEntries, getProp]
  have hs : slugify U (prop (.obj [("ciudad", .str c)]) "ciudad") = .ok b := by rw [hpc]; exact hslug
  have hd : (getProp r "id").strictEqStr b = false := by
    rw [hid]; exact strictEqStr_ne (fun e => hab e.symm)
  have hpreA : ∀ o ∈ pre, cityMatchesLazy U a o = .ok false := fun o ho =>
    (cityMatches_false (hothersA o (List.mem_append_left _ ho))).2
  have hrA : cityMatchesLazy U a r = .ok true := by
    simp [cityMatchesLazy, hid, JsVal.strictEqStr]
  have hi := findCityIndex_hit hpreA hrA post
  have hany := no_conflict_middle (r := r)
    (fun o ho => (cityMatches_false (hothersB o ho)).1)
  have hupd := @updateCity_resolved U now (pre ++ r :: post) (.str a)
    (.obj [("ciudad", .str c)]) a pre.length r ⟨rfl, rfl⟩ hfix hi (getElem?_middle pre post r)
  rw [reassignId_eval hs hb hd, if_neg (by simp [hany])] at hupd
  have hserv : (prop (.obj [("ciudad", .str c)]) "servicios_informales").truthy = false := by
    simp [prop, ownEntries, getProp, JsVal.truthy]
  simp only [hserv, Bool.false_and, Bool.false_eq_true, if_false, set_middle] at hupd
  refine ⟨_, hupd, ?_, ?_, ?_⟩
  · rw [getProp_updated_id, getProp_setProp, if_pos rfl]
  all_goals
    have hmc : getProp (setProp (setProp (spread r (ownEntries (.obj [("ciudad", .str c)])))
        "id" (.str b)) "ultima_actualizacion_aproximada"
        ((prop (.obj [("ciudad", .str c)]) "ultima_actualizacion_aproximada").or (.str now)))
        "ciudad" = .str c := by
      rw [getProp_setProp, if_neg (by decide), getProp_setProp, if_neg (by decide),
        getProp_spread]
      simp [ownEntries, hasKey, getProp]
    have hmi : getProp (setProp (setProp (spread r (ownEntries (.obj [("ciudad", .str c)])))
        "id" (.str b)) "ultima_actualizacion_aproximada"
        ((prop (.obj [("ciudad", .str c)]) "ultima_actualizacion_aproximada").or (.str now)))
        "id" = .str b := by
      rw [getProp_updated_id, getProp_setProp, if_pos rfl]
  · simp only [getCity, normalizeId, hfix]
    apply findCity_none
    intro o ho
    rcases List.mem_append.mp ho with ho | ho
    · exact hothersA o (List.mem_append_left _ ho)
    · rcases List.mem_cons.mp ho with rfl | ho
      · simp [cityMatches, normalizeId, hmc, hmi, hslug, hab, strictEqStr_ne hab]
      · exact hothersA o (List.mem_append_right _ ho)
  · simp only [getCity, normalizeId, slugify_fixed hslug]
    apply findCity_hit (fun o ho => hothersB o (List.mem_append_left _ ho))
    simp [cityMatches, normalizeId, hmc, hmi, hslug]

/-- Witness for C13: `bogota` renamed to `Medellín`. -/
theorem updateCity_rename_witness :
    ∃ m, updateCity latin1 "2026-11"
          ([sampleRecord "cali" "Cali"] ++ sampleRecord "bogota" "Bogotá" :: [])
          (.str "bogota") (.obj [("ciudad", .str "Medellín")]) =
        (.ok (some m), [sampleRecord "cali" "Cali"] ++ m :: []) ∧
      getProp m "id" = .str "medellin" ∧
      getCity latin1 ([sampleRecord "cali" "Cali"] ++ m :: []) (.str "bogota") = .ok none ∧
      getCity latin1 ([sampleRecord "cali" "Cali"] ++ m :: []) (.str "medellin") =
        .ok (some m) :=
  updateCity_rename latin1 "2026-11" [sampleRecord "cali" "Cali"] []
    (sampleRecord "bogota" "Bogotá") "bogota" "Medellín" "medellin"
    (by decide) (by decide) (by decide) (by decide) (by decide) (by decide) (by decide)

/-! ## Lemmas: `deleteCity` -/

theorem rejectCities_eq_filter {p : City → Except JsError Bool} {q : City → Bool} :
    ∀ {l : List City}, (∀ c ∈ l, p c = .ok (q c)) →
      rejectCities p l = .ok (l.filter (fun c => !q c))
  | [], _ => rfl
  | c :: cs, h => by
    have ih := rejectCities_eq_filter (fun d hd => h d (List.mem_cons_of_mem _ hd))
    rw [rejectCities, h c (List.mem_cons_self _ _)]
    simp only [ih, List.filter_cons]
    cases q c <;> simp

theorem rejectCities_sublist {p : City → Except JsError Bool} :
    ∀ {l rest : List City}, rejectCities p l = .ok rest → rest.Sublist l
  | [], rest, h => by
    simp only [rejectCities, Except.ok.injEq] at h
    subst h
    exact List.Sublist.refl _
  | c :: cs, rest, h => by
    rw [rejectCities] at h
    cases hp : p c with
    | error e => simp only [hp] at h; cases h
    | ok b =>
      cases hr : rejectCities p cs with
      | error e => simp only [hp, hr] at h; cases h
      | ok rest1 =>
        simp only [hp, hr, Except.ok.injEq] at h
        have ih := rejectCities_sublist hr
        subst h
        cases b
        · exact ih.cons₂ c
        · exact ih.cons c

/-- The lazy predicate on a record whose display name slugifies without
error. -/
theorem cityMatchesLazy_eq {U : UnicodeOps} {target : String} {c : City}
    (h : ∃ s, slugify U (getProp c "ciudad") = .ok s) :
    cityMatchesLazy U target c =
      .ok ((getProp c "id").strictEqStr target ||
        decide (slugify U (getProp c "ciudad") = .ok target)) := by
  obtain ⟨s, hs⟩ := h
  unfold cityMatchesLazy
  by_cases hd : (getProp c "id").strictEqStr target = true
  · simp [hd]
  · by_cases e : s = target <;> simp [hd, normalizeId, hs, e]

theorem deleteCity_eval {U : UnicodeOps} {store : Store} {t : JsVal} {target : String}
    (ht : slugify U t = .ok target)
    (hc : ∀ c ∈ store, ∃ s, slugify U (getProp c "ciudad") = .ok s) :
    deleteCity U store t =
      (.ok (decide ((recordsLeft U target store).length < store.length)),
        recordsLeft U target store) := by
  have hrej : rejectCities (cityMatchesLazy U target) store = .ok (recordsLeft U target store) := by
    rw [rejectCities_eq_filter (fun c hm => cityMatchesLazy_eq (hc c hm))]
    unfold recordsLeft
    congr 1
    apply List.filter_congr
    intro c _
    simp
  unfold deleteCity
  simp only [normalizeId, ht, hrej]
  by_cases hlen : (recordsLeft U target store).length = store.length
  · have hsame : recordsLeft U target store = store := by
      unfold recordsLeft at hlen ⊢
      exact List.filter_eq_self.mpr (List.filter_length_eq_length.mp hlen)
    simp [hlen, hsame]
  · have hle : (recordsLeft U target store).length ≤ store.length := List.length_filter_le _ _
    have hlt : (recordsLeft U target store).length < store.length := by omega
    simp [hlen, hlt]

/-! ## Claim about `deleteCity` -/

/-- Claim C16: for a token `t` with slug `target`, on a collection whose display
names all slugify, `deleteCity(t)` persists exactly the records whose id
differs from `target` and whose `slugify(ciudad)` differs from `target`, in
their original order, and returns `true` exactly when that removed at least
one record; when no record matches it returns `false` and the collection is
unchanged; and a second `deleteCity(t)` returns `false` and changes nothing. -/
theorem deleteCity_filter (U : UnicodeOps) (store : Store) (t : JsVal) (target : String)
    (ht : slugify U t = .ok target)
    (hc : ∀ c ∈ store, ∃ s, slugify U (getProp c "ciudad") = .ok s) :
    deleteCity U store t =
      (.ok (decide ((recordsLeft U target store).length < store.length)),
        recordsLeft U target store) ∧
    ((∀ c ∈ store, (getProp c "id").strictEqStr target = false ∧
        slugify U (getProp c "ciudad") ≠ .ok target) →
      deleteCity U store t = (.ok false, store)) ∧
    deleteCity U (deleteCity U store t).2 t = (.ok false, (deleteCity U store t).2) := by
  have h1 := deleteCity_eval ht hc
  have hidem : recordsLeft U target (recordsLeft U target store) = recordsLeft U target store := by
    unfold recordsLeft
    rw [List.filter_filter]
    simp
  refine ⟨h1, ?_, ?_⟩
  · intro hno
    have hsame : recordsLeft U target store = store := by
      unfold recordsLeft
      rw [List.filter_eq_self]
      intro c hm
      simp [(hno c hm).1, (hno c hm).2]
    rw [h1, hsame]
    simp
  · rw [h1]
    have hc' : ∀ c ∈ recordsLeft U target store,
        ∃ s, slugify U (getProp c "ciudad") = .ok s := fun c hm =>
      hc c (List.mem_of_mem_filter hm)
    rw [deleteCity_eval ht hc', hidem]
    simp

/-- Witness for C16: deleting `Bogotá` from three records. -/
theorem deleteCity_filter_witness :
    deleteCity latin1
        [sampleRecord "cali" "Cali", sampleRecord "bogota" "Bogotá",
          sampleRecord "leticia" "Leticia"] (.str "Bogotá") =
      (.ok (decide ((recordsLeft latin1 "bogota"
          [sampleRecord "cali" "Cali", sampleRecord "bogota" "Bogotá",
            sampleRecord "leticia" "Leticia"]).length <
          [sampleRecord "cali" "Cali", sampleRecord "bogota" "Bogotá",
            sampleRecord "leticia" "Leticia"].length)),
        recordsLeft latin1 "bogota"
          [sampleRecord "cali" "Cali", sampleRecord "bogota" "Bogotá",
            sampleRecord "leticia" "Leticia"]) ∧
    deleteCity latin1
        [sampleRecord "cali" "Cali", sampleRecord "bogota" "Bogotá",
          sampleRecord "leticia" "Leticia"] (.str "Bogotá") =
      (.ok true, [sampleRecord "cali" "Cali", sampleRecord "leticia" "Leticia"]) :=
  ⟨(deleteCity_filter latin1
      [sampleRecord "cali" "Cali", sampleRecord "bogota" "Bogotá",
        sampleRecord "leticia" "Leticia"] (.str "Bogotá") "bogota" (by decide)
      (by
        intro c hmem
        simp only [List.mem_cons, List.mem_singleton, List.not_mem_nil, or_false] at hmem
        rcases hmem with rfl | rfl | rfl
        · exact ⟨"cali", by decide⟩
        · exact ⟨"bogota", by decide⟩
        · exact ⟨"leticia", by decide⟩)).1,
    by decide⟩

/-! ## Lemmas: what a failed call persists -/

theorem createCity_error {U : UnicodeOps} {now : String} {store store' : Store}
    {payload : JsVal} {e : JsError} (h : createCity U now store payload = (.error e, store')) :
    store' = store := by
  unfold createCity at h
  split at h
  · exact (congrArg Prod.snd h).symm
  · split at h
    · exact (congrArg Prod.snd h).symm
    · split at h
      · exact (congrArg Prod.snd h).symm
      · cases h

theorem updateCity_not_updated {U : UnicodeOps} {now : String} {store store' : Store}
    {token payload : JsVal} {res : Except JsError (Option City)}
    (h : updateCity U now store token payload = (res, store'))
    (hres : ∀ m, res ≠ .ok (some m)) : store' = store := by
  unfold updateCity at h
  by_cases hp : (!payload.truthy || !payload.typeofObject) = true
  · rw [if_pos hp] at h
    exact (congrArg Prod.snd h).symm
  · rw [if_neg hp] at h
    cases hn : normalizeId U token with
    | error e =>
      simp only [hn] at h
      exact (congrArg Prod.snd h).symm
    | ok target =>
      simp only [hn] at h
      cases hf : findCityIndex (cityMatchesLazy U target) store with
      | error e =>
        simp only [hf] at h
        exact (congrArg Prod.snd h).symm
      | ok found =>
        cases found with
        | none =>
          simp only [hf] at h
          exact (congrArg Prod.snd h).symm
        | some index =>
          simp only [hf] at h
          cases hre : reassignId U store index (store.getD index [])
              (spread (store.getD index []) (ownEntries payload)) payload with
          | error e =>
            simp only [hre] at h
            exact (congrArg Prod.snd h).symm
          | ok m1 =>
            simp only [hre] at h
            split at h
            · exact (congrArg Prod.snd h).symm
            · exact absurd (congrArg Prod.fst h).symm (hres _)

theorem deleteCity_sublist (U : UnicodeOps) (store : Store) (t : JsVal) :
    (deleteCity U store t).2.Sublist store := by
  unfold deleteCity
  split
  · exact List.Sublist.refl _
  · split
    · exact List.Sublist.refl _
    · rename_i nextCities hr
      split
      · exact List.Sublist.refl _
      · exact rejectCities_sublist hr

theorem set_same {α : Type} : ∀ {l : List α} {i : Nat} {x : α}, l[i]? = some x → l.set i x = l
  | [], _, _, h => by simp at h
  | a :: l, 0, x, h => by
    simp only [List.getElem?_cons_zero, Option.some.injEq] at h
    subst h
    rfl
  | a :: l, i + 1, x, h => by
    simp only [List.getElem?_cons_succ] at h
    simp only [List.set_cons_succ, set_same h]

theorem storeIds_set (store : Store) (index : Nat) (m : City) :
    storeIds (store.set index m) = (storeIds store).set index (getProp m "id") := by
  unfold storeIds
  rw [List.map_set]

/-! ## Claim: the ids stay pairwise distinct when the payload brings no id -/

/-- Claim C17: on a collection with pairwise distinct ids, the collection
persisted after `createCity`, after `updateCity` (with a payload that does not
contain the key `id`) and after `deleteCity` again has pairwise distinct ids,
whether the call succeeds or fails. -/
theorem uniqueIds_preserved (U : UnicodeOps) (now : String) (store : Store)
    (hu : UniqueIds store) :
    (∀ payload, hasKey (ownEntries payload) "id" = false →
      UniqueIds (createCity U now store payload).2) ∧
    (∀ token payload, hasKey (ownEntries payload) "id" = false →
      UniqueIds (updateCity U now store token payload).2) ∧
    (∀ token, UniqueIds (deleteCity U store token).2) := by
  refine ⟨?_, ?_, ?_⟩
  · intro payload hid
    rcases h : createCity U now store payload with ⟨res, store'⟩
    cases res with
    | error e => rw [createCity_error h]; exact hu
    | ok r =>
      obtain ⟨_, cityId, _, hany, hr, hst⟩ := createCity_ok h
      have hri : getProp r "id" = .str cityId := by rw [hr]; exact created_id _ _ _ hid
      simp only [hst]
      unfold UniqueIds storeIds at hu ⊢
      rw [List.map_append, List.nodup_append]
      refine ⟨hu, by simp, ?_⟩
      intro v hv hv'
      simp only [List.map_cons, List.map_nil, List.mem_singleton] at hv'
      obtain ⟨c, hc, rfl⟩ := List.mem_map.mp hv
      rw [List.any_eq_false] at hany
      have := hany c hc
      rw [hv', hri] at this
      simp [JsVal.strictEqStr] at this
  · intro token payload hid
    rcases h : updateCity U now store token payload with ⟨res, store'⟩
    by_cases hres : ∃ m, res = .ok (some m)
    · obtain ⟨m, rfl⟩ := hres
      obtain ⟨_, _, target, index, r, m1, _, _, hr, hm1, _, hm, hst⟩ := updateCity_ok h
      simp only [hst]
      unfold UniqueIds at hu ⊢
      rw [storeIds_set, hm, getProp_updated_id]
      have hrid : (storeIds store)[index]? = some (getProp r "id") := by
        unfold storeIds
        rw [List.getElem?_map, hr]; rfl
      rcases reassignId_ok hm1 with e | ⟨newId, _, _, _, hd, hany, e⟩
      · have : getProp m1 "id" = getProp r "id" := by
          rw [e, getProp_spread, hid]; rfl
        rw [this, set_same hrid]
        exact hu
      · rw [e, getProp_setProp, if_pos rfl]
        apply List.Nodup.set hu
        intro hmem
        obtain ⟨c, hc, hcid⟩ := List.mem_map.mp hmem
        obtain ⟨i, hi, hget⟩ := List.mem_iff_getElem.mp hc
        have hget' : store[i]? = some c := by rw [List.getElem?_eq_getElem hi, hget]
        by_cases hii : i = index
        · subst hii
          rw [hr] at hget'
          cases hget'
          exact strictEqStr_false_ne hd hcid
        · rw [List.any_eq_false] at hany
          have := hany (i, c) (List.mk_mem_enum_iff_getElem?.mpr hget')
          simp [hii, hcid, JsVal.strictEqStr] at this
    · have hres' : ∀ m, res ≠ .ok (some m) := fun m e => hres ⟨m, e⟩
      rw [updateCity_not_updated h hres']
      exact hu
  · intro token
    exact List.Nodup.sublist (List.Sublist.map _ (deleteCity_sublist U store token)) hu

/-- Witness for C17: a collection of two records and one call of each kind. -/
theorem uniqueIds_preserved_witness :
    UniqueIds (createCity latin1 "2026-11"
      [sampleRecord "cali" "Cali", sampleRecord "bogota" "Bogotá"]
      (samplePayload "Leticia")).2 ∧
    UniqueIds (updateCity latin1 "2026-11"
      [sampleRecord "cali" "Cali", sampleRecord "bogota" "Bogotá"] (.str "cali")
      (.obj [("ciudad", .str "Medellín")])).2 ∧
    UniqueIds (deleteCity latin1
      [sampleRecord "cali" "Cali", sampleRecord "bogota" "Bogotá"] (.str "cali")).2 :=
  ⟨(uniqueIds_preserved latin1 "2026-11"
      [sampleRecord "cali" "Cali", sampleRecord "bogota" "Bogotá"] (by decide)).1
      (samplePayload "Leticia") (by decide),
    (uniqueIds_preserved latin1 "2026-11"
      [sampleRecord "cali" "Cali", sampleRecord "bogota" "Bogotá"] (by decide)).2.1
      (.str "cali") (.obj [("ciudad", .str "Medellín")]) (by decide),
    (uniqueIds_preserved latin1 "2026-11"
      [sampleRecord "cali" "Cali", sampleRecord "bogota" "Bogotá"] (by decide)).2.2
      (.str "cali")⟩

end CityStore
